import Mathlib

set_option maxHeartbeats 1000000

/-!
Verification of the YouFLAC backend (Go) against its natural-language
specification.  The Go code under `backend/` is shallowly embedded: pure
fragments become Lean functions, the stateful pipeline `processItem` becomes an
explicit state-passing function over a `QueueItem` record parameterized by an
`Env` record that fixes the outcomes of every external collaborator call
(network, subprocesses, filesystem).  Machine floats (`float64` durations) are
modelled as `Int`; wall-clock timestamps and the event stream are omitted as
they do not bear on any claim.  Statuses are Go strings (`type Status string`);
the literal values come from the frontend type union and spec section 3.
-/

namespace YouFLAC

/-! ## Data model (backend structs) -/

/-- Status constants (Go `StatusPending` etc.; string values from
`frontend/src` and spec section 3). -/
def StatusPending : String := "pending"

def StatusFetchingInfo : String := "fetching_info"

def StatusDownloadingVideo : String := "downloading_video"

def StatusDownloadingAudio : String := "downloading_audio"

def StatusMuxing : String := "muxing"

def StatusOrganizing : String := "organizing"

def StatusComplete : String := "complete"

def StatusError : String := "error"

def StatusCancelled : String := "cancelled"

/-- The five in-flight statuses, exactly as enumerated in the `switch` of
`LoadQueue` and `GetStats` (queue_persistence.go). -/
def inFlightStatuses : List String :=
  [StatusFetchingInfo, StatusDownloadingVideo, StatusDownloadingAudio,
   StatusMuxing, StatusOrganizing]

/-- All nine statuses of the data model. -/
def allStatuses : List String :=
  [StatusPending, StatusFetchingInfo, StatusDownloadingVideo,
   StatusDownloadingAudio, StatusMuxing, StatusOrganizing,
   StatusComplete, StatusError, StatusCancelled]

/-- Candidate record `AudioCandidate` (fields as used by the backend tests). -/
structure AudioCandidate where
  platform : String := ""
  url : String := ""
  title : String := ""
  artist : String := ""
  album : String := ""
  isrc : String := ""
  quality : String := ""
  duration : Int := 0
  priority : Int := 0
  deriving Repr, DecidableEq

/-- Diagnostics record `MatchDiagnostics` (audio_lucida.go tests). -/
structure MatchDiagnostics where
  sourcesTried : List String := []
  failureReason : String := ""
  bestScore : Int := 0
  deriving Repr, DecidableEq

/-- Queue item record (the persisted fields; the transient cancel handle and the
timestamps are omitted).  `Duration` is `float64` in Go, modelled as `Int`. -/
structure QueueItem where
  id : String := ""
  videoURL : String := ""
  spotifyURL : String := ""
  title : String := ""
  artist : String := ""
  album : String := ""
  thumbnail : String := ""
  duration : Int := 0
  playlistName : String := ""
  playlistPosition : Int := 0
  status : String := "pending"
  progress : Nat := 0
  stage : String := ""
  audioSource : String := ""
  videoPath : String := ""
  audioPath : String := ""
  outputPath : String := ""
  audioOnly : Bool := false
  error : String := ""
  matchCandidates : Option (List AudioCandidate) := none
  matchDiagnostics : Option MatchDiagnostics := none
  fileSize : Int := 0
  deriving Repr, DecidableEq

/-- Video metadata record `VideoInfo` (playlist.go / matcher). -/
structure VideoInfo where
  title : String := ""
  artist : String := ""
  thumbnail : String := ""
  duration : Int := 0
  deriving Repr, DecidableEq

/-! ## queue_persistence.go: LoadQueue normalization (claim C5) -/

/-- Decidable test for the in-flight statuses, mirroring the `switch` cases
`StatusFetchingInfo, StatusDownloadingVideo, StatusDownloadingAudio,
StatusMuxing, StatusOrganizing` in `LoadQueue`. -/
def isInFlight (s : String) : Bool :=
  s == StatusFetchingInfo || s == StatusDownloadingVideo ||
  s == StatusDownloadingAudio || s == StatusMuxing || s == StatusOrganizing

/-- One item of the `for i := range state.Items` loop of `LoadQueue`
(queue_persistence.go lines 74-82): in-flight items are reset to pending with
progress 0 and stage "Waiting... (resumed)"; every other item is untouched. -/
def normalizeLoadedItem (it : QueueItem) : QueueItem :=
  if isInFlight it.status then
    { it with status := StatusPending, progress := 0,
              stage := "Waiting... (resumed)" }
  else it

/-- Function `LoadQueue` on the successfully decoded persisted item list (the
file-read and JSON-unmarshal error paths leave `q.items` untouched and are not
modelled). -/
def LoadQueue (persisted : List QueueItem) : List QueueItem :=
  persisted.map normalizeLoadedItem

/-- Prefix test on character lists (computable in the kernel). -/
def isPrefixList : List Char → List Char → Bool
  | [], _ => true
  | _ :: _, [] => false
  | a :: pa, b :: lb => a == b && isPrefixList pa lb

/-- Substring test on character lists. -/
def hasSubstring (pat : List Char) : List Char → Bool
  | [] => pat.isEmpty
  | b :: t => isPrefixList pat (b :: t) || hasSubstring pat t

/-- Substring test used to state "stage string containing resumed". -/
def containsResumed (s : String) : Bool :=
  hasSubstring "resumed".data s.data

/-! ## queue_persistence.go: SaveQueue (claim C7) -/

/-- Serialized queue state record `QueueState`: the full item list plus an
`updatedAt` timestamp (timestamps modelled as opaque `Int`). -/
structure QueueState where
  items : List QueueItem
  updatedAt : Int
  deriving Repr, DecidableEq

/-- Filesystem operations a save may perform.  The payload of a write is the
marshalled `QueueState` (JSON encoding modelled as the state itself). -/
inductive FSOp where
  | mkdirAll (path : String)
  | writeFile (path : String) (data : QueueState)
  | rename (src : String) (dst : String)
  deriving Repr, DecidableEq

/-- Path helper `GetQueueFilePath`: `filepath.Join(GetDataPath(), "queue.json")`. -/
def GetQueueFilePath (dataPath : String) : String :=
  dataPath ++ "/queue.json"

/-- Function `SaveQueue` (queue_persistence.go lines 28-52) as the trace of filesystem
operations it performs on the happy path: one `MkdirAll` on the parent
directory and a single direct `os.WriteFile` of the marshalled state to
`queue.json`.  There is no temporary file and no rename in the source. -/
def SaveQueue (items : List QueueItem) (dataPath : String) (now : Int) :
    List FSOp :=
  [FSOp.mkdirAll dataPath,
   FSOp.writeFile (GetQueueFilePath dataPath) ⟨items, now⟩]

/-- Whether an operation trace writes `target` atomically via a temporary
file that is then renamed over the target (the claimed behavior). -/
def atomicViaRename (ops : List FSOp) (target : String) : Prop :=
  ∃ tmp data, tmp ≠ target ∧ FSOp.writeFile tmp data ∈ ops ∧
    FSOp.rename tmp target ∈ ops

/-! ## queue_persistence.go: GetStats (claim C9) -/

/-- Statistics record `QueueStats`. -/
structure QueueStats where
  total : Nat := 0
  pending : Nat := 0
  active : Nat := 0
  completed : Nat := 0
  failed : Nat := 0
  cancelled : Nat := 0
  deriving Repr, DecidableEq

/-- The counter bump of one loop iteration of `GetStats`
(queue_persistence.go lines 160-173). -/
def statsBump (st : QueueStats) (s : String) : QueueStats :=
  if s == StatusPending then { st with pending := st.pending + 1 }
  else if isInFlight s then { st with active := st.active + 1 }
  else if s == StatusComplete then { st with completed := st.completed + 1 }
  else if s == StatusError then { st with failed := st.failed + 1 }
  else if s == StatusCancelled then { st with cancelled := st.cancelled + 1 }
  else st

/-- Function `GetStats`: `Total = len(q.items)`, then one `switch` per item. -/
def GetStats (items : List QueueItem) : QueueStats :=
  items.foldl (fun st it => statsBump st it.status) { total := items.length }

/-! ## playlist.go: GenerateM3U8 (claim C10)

`SanitizeFileName` and `filepath.Rel` live outside `src/` (naming.go and the
Go standard library); they enter the model as function parameters.  `rel`
returns `none` when no relative path can be computed, in which case the source
falls back to the absolute path. -/

/-- The playlist line pair emitted for one item, or `none` when the item is
skipped because its `OutputPath` is empty (playlist.go lines 32-55). -/
def m3u8EntryText (rel : String → String → Option String) (outputDir : String)
    (it : QueueItem) : String :=
  let r := (rel outputDir it.outputPath).getD it.outputPath
  let d : Int := if it.duration ≤ 0 then -1 else it.duration
  let info := if it.artist == "" then it.title
              else it.artist ++ " - " ++ it.title
  "#EXTINF:" ++ toString d ++ "," ++ info ++ "\n" ++ r ++ "\n"

/-- The loop body: skipped items produce `none`. -/
def m3u8Entry (rel : String → String → Option String) (outputDir : String)
    (it : QueueItem) : Option String :=
  if it.outputPath == "" then none
  else some (m3u8EntryText rel outputDir it)

/-- The `strings.Builder` accumulation. -/
def joinAll : List String → String
  | [] => ""
  | a :: l => a ++ joinAll l

/-- Function `GenerateM3U8`: `none` models the early `return nil` on an empty item
slice (no file is created); otherwise the pair of the playlist file path and
the exact content written.  Filesystem errors of `MkdirAll`/`WriteFile` are
not modelled (the claim is about the written content). -/
def GenerateM3U8 (rel : String → String → Option String)
    (sanitize : String → String) (items : List QueueItem)
    (outputDir playlistName : String) : Option (String × String) :=
  if items.length = 0 then none
  else
    let safeName := if sanitize playlistName == "" then "playlist"
                    else sanitize playlistName
    let path := outputDir ++ "/" ++ safeName ++ ".m3u8"
    let content :=
      "#EXTM3U\n" ++ joinAll (items.filterMap (m3u8Entry rel outputDir))
    some (path, content)

/-! ## Queue manager: RetryWithOverride (claim C4)

The queue manager itself (queue.go) is not under `src/`; only its unit tests
are (audio_lucida.go test sections).  The operation is therefore modelled from
the spec. -/

/-- Override request record (fields from the unit tests; an empty string means
the override was not supplied). -/
structure RetryOverrideRequest where
  artist : String := ""
  title : String := ""
  musicURL : String := ""
  deriving Repr, DecidableEq

/-- Modelled from the spec: `RetryWithOverride(id, overrides)` of the Queue
Manager (queue.go, not under `src/`): allowed only from `error`; applies the
supplied overrides (a supplied `music_url` overwrites the stored catalog URL,
which the tests identify as the `SpotifyURL` field), clears `error`,
`match_candidates` and `match_diagnostics`, sets `status = pending`, and
leaves every other field (the original `video_url` in particular) unchanged.
Returns the updated item list and the updated item, or `none` for the error
cases (item not found, or item not in `error` status). -/
def RetryWithOverride (items : List QueueItem) (id : String)
    (req : RetryOverrideRequest) : Option (List QueueItem × QueueItem) :=
  match items.find? (fun it => it.id == id) with
  | none => none
  | some it =>
    if it.status != StatusError then none
    else
      let it' : QueueItem :=
        { it with
          artist := if req.artist != "" then req.artist else it.artist,
          title := if req.title != "" then req.title else it.title,
          spotifyURL := if req.musicURL != "" then req.musicURL
                        else it.spotifyURL,
          status := StatusPending,
          error := "",
          matchCandidates := none,
          matchDiagnostics := none }
      some (items.map (fun x => if x.id == id then it' else x), it')

/-! ## Lucida service: multi-endpoint requests (claim C8)

`src/` holds a single-endpoint version of `LucidaService` (fields `client`,
`baseURL`) while the unit tests in the same repository construct the service
with an `endpoints : []string` field and expect fallback behavior and the
error "all lucida endpoints failed"; the multi-endpoint implementation is not
under `src/`.  The request loop is therefore modelled from the spec:
"requests are attempted in order and on 5xx/network failure the next base URL
is tried.  A 4xx is treated as authoritative (not retried across
endpoints)". -/

/-- Parsed response body of the lucida API at the level the claims need:
whether JSON decoding found `success = true`, and the payload. -/
structure LucidaBody where
  success : Bool := false
  errorMsg : String := ""
  trackTitle : String := ""
  trackArtist : String := ""
  deriving Repr, DecidableEq

/-- One HTTP exchange outcome: a status code and a body.  A network failure is
`none` in the behavior function below. -/
structure HTTPResp where
  code : Nat
  body : LucidaBody := {}
  deriving Repr, DecidableEq

/-- An endpoint fails the scan when the exchange is a network failure or a
5xx response. -/
def endpointFails (beh : String → Option HTTPResp) (e : String) : Prop :=
  beh e = none ∨ ∃ r, beh e = some r ∧ 500 ≤ r.code

/-- Modelled from the spec: the multi-endpoint request loop of the lucida
service (implementation not under `src/`).  Walks the configured base URLs in
order; a network failure or a 5xx response moves to the next endpoint; any
other response (2xx, 3xx, 4xx — 4xx being authoritative) ends the scan.
Returns the endpoints contacted and the final response (`none` when every
endpoint failed). -/
def requestOverEndpoints (beh : String → Option HTTPResp) :
    List String → List String × Option HTTPResp
  | [] => ([], none)
  | e :: rest =>
    match beh e with
    | none =>
      let (t, r) := requestOverEndpoints beh rest
      (e :: t, r)
    | some resp =>
      if 500 ≤ resp.code then
        let (t, r) := requestOverEndpoints beh rest
        (e :: t, r)
      else ([e], some resp)

/-- Modelled from the spec: `IsAvailable` of the multi-endpoint lucida
service.  The single-endpoint source returns `resp.StatusCode < 500`; lifted
over the endpoint list per the unit tests (`FallsBackToSecond`,
`AllEndpointsFail`): available iff some endpoint answers below 500. -/
def lucidaIsAvailable (beh : String → Option HTTPResp)
    (endpoints : List String) : Bool :=
  match (requestOverEndpoints beh endpoints).2 with
  | some _ => true
  | none => false

/-- Result of `fetchTrackData` at the level the claims need. -/
inductive FetchResult where
  | ok (body : LucidaBody)
  | apiError (msg : String)
  | allEndpointsFailed
  deriving Repr, DecidableEq

/-- Modelled from the spec: multi-endpoint `fetchTrackData`.  The request is
attempted over the endpoints; when every endpoint fails the error is
"all lucida endpoints failed" (unit test `GetTrackInfo_AllEndpointsFail`);
otherwise the body is parsed and `success = false` yields an API error, as in
the single-endpoint source. -/
def fetchTrackData (beh : String → Option HTTPResp)
    (endpoints : List String) : FetchResult :=
  match (requestOverEndpoints beh endpoints).2 with
  | none => .allEndpointsFailed
  | some resp =>
    if resp.body.success then .ok resp.body
    else .apiError resp.body.errorMsg

/-! ## playlist.go: the processItem pipeline

`processItem` (playlist.go lines 71-723) is embedded as a sequential function
over one `QueueItem`, parameterized by an `Env` record that fixes the outcome
of every external collaborator call.  Collaborators that are part of the
repository but not under `src/` (naming.go path generators, queue.go update
primitives) and Go standard-library calls enter the model as `Env` fields.
Cancellation checkpoints (`select { case <-itemCtx.Done() }`) and the event
emissions are omitted: they do not assign status, progress or stage.  The
returned list is the trace of every `UpdateStatus` call and of every
`updateItem` closure that assigns `Progress`, in execution order. -/

/-- Resolver result of `ResolveMusicURL`: the cross-platform link set. -/
structure SongLinks where
  tidalURL : String := ""
  qobuzURL : String := ""
  amazonURL : String := ""
  deezerURL : String := ""
  deriving Repr, DecidableEq

/-- File index entry `FileIndexEntry` as consumed by stage 1.5. -/
structure ExistingFile where
  path : String := ""
  duration : Int := 0
  size : Int := 0
  deriving Repr, DecidableEq

/-- The configuration snapshot fields read by `processItem`. -/
structure Config where
  outputDirectory : String := ""
  videoQuality : String := "best"
  namingTemplate : String := ""
  audioSourcePriority : List String := ["tidal", "qobuz", "amazon", "deezer"]
  embedCoverArt : Bool := false
  lyricsEnabled : Bool := false
  lyricsEmbedMode : String := ""
  generateNFO : Bool := false

/-- Outcomes of every external call `processItem` makes, fixed up front.
`lucidaAvailable` is the lucida health probe's answer: it is part of the
environment but — as the code shows — `processItem` never consults it. -/
structure Env where
  config : Config := {}
  tmpRoot : String := "/tmp"
  tempDirOK : Bool := true
  parseOK : Bool := true
  videoMeta : Option VideoInfo := none
  fileIndexPresent : Bool := false
  findMatch : String → String → Option ExistingFile := fun _ _ => none
  extOf : String → String := fun _ => ".mkv"
  genPlaylistPath : String → String := fun ext => "/out/p" ++ ext
  genTemplatePath : String → String := fun ext => "/out/t" ++ ext
  copyOK : String → String → Bool := fun _ _ => false
  videoDownload : Option String := none
  resolve : Option SongLinks := none
  tidalHifiAvailable : Bool := false
  lucidaAvailable : Bool := false
  orpheusAvailable : Bool := false
  tidalHifiDownload : String → Option String := fun _ => none
  lucidaDownload : String → Option String := fun _ => none
  orpheusDownload : String → Option String := fun _ => none
  tidalSearch : Option String := none
  extractOK : Bool := false
  outputMkdirOK : Bool := true
  conflictAdjust : String → String := id
  muxOK : Bool := false
  createFLACOK : Bool := false
  statSize : String → Int := fun _ => 0

/-- One status/progress/stage assignment. -/
structure Update where
  status : String
  progress : Nat
  stage : String
  deriving Repr, DecidableEq

/-- Transition helper `UpdateStatus(id, status, progress, stage)`: sets the three fields and
produces the corresponding trace event. -/
def updStatus (it : QueueItem) (st : String) (p : Nat) (sg : String) :
    QueueItem × Update :=
  ({ it with status := st, progress := p, stage := sg }, ⟨st, p, sg⟩)

/-- Modelled from the spec: `SetItemError(id, err)` of the Queue Manager
(queue.go, not under `src/`): "transitions to `error` and publishes `error`
event"; the error message is stored.  No progress assignment. -/
def SetItemError (it : QueueItem) (msg : String) : QueueItem :=
  { it with status := StatusError, error := msg }

/-- Stage 1 (lines 127-173): fetch video info unless already known.  Returns
`none` when the run halted with an error. -/
def stage1 (env : Env) (it : QueueItem) :
    QueueItem × List Update × Option VideoInfo :=
  if it.title == "" then
    let (it1, u1) := updStatus it StatusFetchingInfo 5 "Parsing URL..."
    if !env.parseOK then (SetItemError it1 "invalid YouTube URL", [u1], none)
    else
      match env.videoMeta with
      | none => (SetItemError it1 "failed to fetch video info", [u1], none)
      | some vi =>
        ({ it1 with title := vi.title, artist := vi.artist,
                    thumbnail := vi.thumbnail, duration := vi.duration },
         [u1], some vi)
  else
    (it, [], some ⟨it.title, it.artist, it.thumbnail, it.duration⟩)

/-- The target path computed in stage 1.5 (lines 212-223): the extension of
the existing file (default ".mkv"), fed to `GeneratePlaylistFilePath` for
playlist items and to `GenerateFilePath` otherwise (both in naming.go, not
under `src/`, hence `Env` fields). -/
def stage15Target (env : Env) (it : QueueItem) (ex : ExistingFile) : String :=
  let ext0 := env.extOf ex.path
  let ext := if ext0 == "" then ".mkv" else ext0
  if 0 < it.playlistPosition then env.genPlaylistPath ext
  else env.genTemplatePath ext

/-- Stage 1.5, skip detection (lines 178-278).  The returned flag is `true`
when the run short-circuited to `complete` (skip or successful copy); on a
failed copy the run falls through with flag `false`. -/
def stage15 (env : Env) (it : QueueItem) (vi : VideoInfo) :
    QueueItem × List Update × Bool :=
  if env.fileIndexPresent && vi.title != "" then
    match env.findMatch vi.title vi.artist with
    | none => (it, [], false)
    | some ex =>
      let (it1, u1) := updStatus it StatusOrganizing 80 "Found existing file..."
      let target := stage15Target env it1 ex
      if ex.path == target then
        let it2 := { it1 with status := StatusComplete, progress := 100,
                              stage := "Skipped (already exists)",
                              outputPath := ex.path }
        (it2, [u1, ⟨StatusComplete, 100, "Skipped (already exists)"⟩], true)
      else
        let (it2, u2) :=
          updStatus it1 StatusOrganizing 90 "Copying existing file..."
        if env.copyOK ex.path target then
          let it3 := { it2 with status := StatusComplete, progress := 100,
                                stage := "Copied from existing",
                                outputPath := target }
          (it3, [u1, u2, ⟨StatusComplete, 100, "Copied from existing"⟩], true)
        else (it2, [u1, u2], false)
  else (it, [], false)

/-- Stage 2, video download (lines 283-313).  Returns the video path and the
`audioOnly` flag; a failed download is not fatal. -/
def stage2 (env : Env) (it : QueueItem) :
    QueueItem × List Update × String × Bool :=
  let (it1, u1) := updStatus it StatusDownloadingVideo 10 "Downloading video..."
  match env.videoDownload with
  | none =>
    let (it2, u2) := updStatus it1 StatusDownloadingAudio 40
        "Video unavailable, downloading audio only..."
    ({ it2 with audioOnly := true }, [u1, u2], "", true)
  | some vp =>
    let (it2, u2) := updStatus it1 StatusDownloadingVideo 40 "Video downloaded"
    ({ it2 with videoPath := vp }, [u1, u2], vp, false)

/-- The `switch source` of the download loop (lines 366-375): unknown tags
leave the URL empty, which skips the source. -/
def urlForSource (links : SongLinks) (s : String) : String :=
  if s == "tidal" then links.tidalURL
  else if s == "qobuz" then links.qobuzURL
  else if s == "amazon" then links.amazonURL
  else if s == "deezer" then links.deezerURL
  else ""

/-- The per-source service ladder (lines 384-415): tidal-hifi first, only for
tidal sources and only when available; lucida next whenever no result yet —
with no availability check in the source; orpheusdl last, only when available.
Returns the progress updates emitted, the `(source, serviceName)` attempts in
order, and the downloaded file path on success. -/
def tryServices (env : Env) (s url : String) :
    List Update × List (String × String) × Option String :=
  let (tr1, att1, r1) :=
    if s == "tidal" && env.tidalHifiAvailable then
      ([(⟨StatusDownloadingAudio, 51, "Downloading FLAC from Tidal..."⟩ : Update)],
       [(s, "tidal-hifi")], env.tidalHifiDownload url)
    else ([], [], none)
  match r1 with
  | some p => (tr1, att1, some p)
  | none =>
    let att2 := att1 ++ [(s, "lucida")]
    match env.lucidaDownload url with
    | some p => (tr1, att2, some p)
    | none =>
      if env.orpheusAvailable then
        (tr1 ++ [⟨StatusDownloadingAudio, 52, "Trying OrpheusDL for " ++ s ++ "..."⟩],
         att2 ++ [(s, "orpheusdl")], env.orpheusDownload url)
      else (tr1, att2, none)

/-- The source loop of the download phase (lines 357-428): sources in
priority order, empty URLs skipped, break on the first success.  Returns the
trace, the attempts, and `(source, path)` on success. -/
def cascade (env : Env) (links : SongLinks) :
    List String →
      List Update × List (String × String) × Option (String × String)
  | [] => ([], [], none)
  | s :: rest =>
    let url := urlForSource links s
    if url == "" then cascade env links rest
    else
      let u50 : Update :=
        ⟨StatusDownloadingAudio, 50, "Downloading from " ++ s ++ "..."⟩
      let (tr, att, r) := tryServices env s url
      match r with
      | some p => (u50 :: tr, att, some (s, p))
      | none =>
        let (tr', att', r') := cascade env links rest
        (u50 :: (tr ++ tr'), att ++ att', r')

/-- Stage 3, audio acquisition (lines 318-475): resolver cascade, then the
TidalHifi search fallback, then extraction from the video.  Returns the audio
path, or `none` when the run halted with `SetItemError`. -/
def stage3 (env : Env) (it : QueueItem) (vi : VideoInfo) (videoPath : String) :
    QueueItem × List Update × Option String :=
  let (it1, u40) := updStatus it StatusDownloadingAudio 40 "Finding audio match..."
  let (it2, tr2, downloaded) :=
    if it1.spotifyURL != "" || it1.videoURL != "" then
      let (it1b, u45) :=
        updStatus it1 StatusDownloadingAudio 45 "Resolving audio sources..."
      match env.resolve with
      | some links =>
        let (trc, _att, res) :=
          cascade env links env.config.audioSourcePriority
        match res with
        | some (s, p) =>
          ({ it1b with audioSource := s, audioPath := p }, u45 :: trc, some p)
        | none => (it1b, u45 :: trc, none)
      | none => (it1b, [u45], none)
    else (it1, ([] : List Update), none)
  match downloaded with
  | some p => (it2, u40 :: tr2, some p)
  | none =>
    let (it3, tr3, found) :=
      if vi.artist != "" && vi.title != "" then
        let (it2b, u55) :=
          updStatus it2 StatusDownloadingAudio 55 "Searching Tidal for track..."
        if env.tidalHifiAvailable then
          match env.tidalSearch with
          | some p =>
            ({ it2b with audioSource := "tidal-search", audioPath := p },
             [u55], some p)
          | none => (it2b, [u55], none)
        else (it2b, [u55], none)
      else (it2, ([] : List Update), none)
    match found with
    | some p => (it3, u40 :: (tr2 ++ tr3), some p)
    | none =>
      if videoPath != "" then
        let (it4, u55e) :=
          updStatus it3 StatusDownloadingAudio 55 "Extracting audio from video..."
        if env.extractOK then
          let ap := env.tmpRoot ++ "/youflac/" ++ it4.id ++ "/audio.mka"
          ({ it4 with audioSource := "extracted", audioPath := ap },
           u40 :: (tr2 ++ tr3 ++ [u55e]), some ap)
        else
          (SetItemError it4 "failed to extract audio",
           u40 :: (tr2 ++ tr3 ++ [u55e]), none)
      else
        (SetItemError it3
          "failed to download audio: no audio source available and video unavailable",
         u40 :: (tr2 ++ tr3), none)

/-- Stage 4 (lines 480-566): output path, conflict resolution, mux or FLAC
creation.  The collaborator contract returns the output path it was given. -/
def stage4 (env : Env) (it : QueueItem) (audioOnly : Bool) :
    QueueItem × List Update × Option String :=
  let (it1, u70) := updStatus it StatusMuxing 70 "Muxing video and audio..."
  let ext := if audioOnly then ".flac" else ".mkv"
  let outP0 := if 0 < it1.playlistPosition then env.genPlaylistPath ext
               else env.genTemplatePath ext
  if !env.outputMkdirOK then
    (SetItemError it1 "failed to create output directory", [u70], none)
  else
    let outP := env.conflictAdjust outP0
    if audioOnly then
      let (it2, u80) := updStatus it1 StatusMuxing 80 "Creating FLAC file..."
      if env.createFLACOK then (it2, [u70, u80], some outP)
      else (SetItemError it2 "failed to create FLAC", [u70, u80], none)
    else
      let (it2, u80) := updStatus it1 StatusMuxing 80 "Creating MKV file..."
      if env.muxOK then (it2, [u70, u80], some outP)
      else (SetItemError it2 "failed to mux", [u70, u80], none)

/-- Stage 4.5 (lines 571-629): the lyrics stage only assigns progress when
enabled and both artist and title are known; its failures are warn-only. -/
def stage45 (env : Env) (it : QueueItem) (vi : VideoInfo) :
    QueueItem × List Update :=
  if env.config.lyricsEnabled && vi.artist != "" && vi.title != "" then
    let (it1, u85) := updStatus it StatusOrganizing 85 "Fetching lyrics..."
    (it1, [u85])
  else (it, [])

/-- Stage 5 (lines 634-664): NFO and poster emission (warn-only failures, no
item mutations beyond the status update). -/
def stage5 (it : QueueItem) : QueueItem × List Update :=
  let (it1, u90) := updStatus it StatusOrganizing 90 "Organizing files..."
  (it1, [u90])

/-- Completion (lines 666-722). -/
def stage6 (env : Env) (it : QueueItem) (outP : String) :
    QueueItem × List Update :=
  let it1 := { it with status := StatusComplete, progress := 100,
                       stage := "Complete", outputPath := outP,
                       fileSize := env.statSize outP }
  (it1, [⟨StatusComplete, 100, "Complete"⟩])

/-- The normal download pipeline from stage 2 on — the continuation the
skip-detection stage falls through to. -/
def runFromStage2 (env : Env) (it : QueueItem) (vi : VideoInfo) :
    QueueItem × List Update :=
  let (it2, tr2, videoPath, audioOnly) := stage2 env it
  let (it3, tr3, audio) := stage3 env it2 vi videoPath
  match audio with
  | none => (it3, tr2 ++ tr3)
  | some _ =>
    let (it4, tr4, mux) := stage4 env it3 audioOnly
    match mux with
    | none => (it4, tr2 ++ tr3 ++ tr4)
    | some outP =>
      let (it5, tr5) := stage45 env it4 vi
      let (it6, tr6) := stage5 it5
      let (it7, tr7) := stage6 env it6 outP
      (it7, tr2 ++ tr3 ++ tr4 ++ tr5 ++ tr6 ++ tr7)

/-- Initial claim of an item (playlist.go lines 76-92): status becomes
`fetching_info` with the fetching stage string; no progress assignment. -/
def startItem (it0 : QueueItem) : QueueItem :=
  { it0 with status := StatusFetchingInfo, stage := "Fetching video info..." }

/-- Pipeline runner `processItem` (playlist.go lines 71-723): the
claim-and-run of one item.  Non-pending items are skipped at the claim. -/
def processItem (env : Env) (it0 : QueueItem) : QueueItem × List Update :=
  if it0.status != StatusPending then (it0, [])
  else
    let it := startItem it0
    if !env.tempDirOK then (SetItemError it "failed to create temp dir", [])
    else
      let (it1, tr1, info) := stage1 env it
      match info with
      | none => (it1, tr1)
      | some vi =>
        let (it15, tr15, halted) := stage15 env it1 vi
        if halted then (it15, tr1 ++ tr15)
        else
          let (itF, trF) := runFromStage2 env it15 vi
          (itF, tr1 ++ tr15 ++ trF)

/-- The progress values assigned during one run, in order. -/
def progressTrace (env : Env) (it0 : QueueItem) : List Nat :=
  (processItem env it0).2.map Update.progress

/-- Adjacent-pair check over a list. -/
def chainb (R : Nat → Nat → Bool) : List Nat → Bool
  | [] => true
  | [_] => true
  | a :: b :: l => R a b && chainb R (b :: l)

/-- Plain monotonicity of adjacent progress values (the claimed invariant). -/
def monoOK (l : List Nat) : Bool := chainb (fun a b => a ≤ b) l

/-- Monotonicity up to the two decreases the code actually performs: the
skip-detection copy-failure fall-through (90 to 10) and the cascade's advance
to the next source (51 or 52 back to 50). -/
def adjOK (a b : Nat) : Bool :=
  (a ≤ b) || (a == 90 && b == 10) || ((a == 51 || a == 52) && b == 50)

/-! ## Helper definitions for the claim statements -/

/-- Terminal statuses per spec section 3: complete, error, cancelled. -/
def isTerminal (s : String) : Bool :=
  s == StatusComplete || s == StatusError || s == StatusCancelled

/-- The write operations of a filesystem trace, with their payloads. -/
def writesOf (ops : List FSOp) : List (String × QueueState) :=
  ops.filterMap fun op =>
    match op with
    | .writeFile p d => some (p, d)
    | _ => none

/-- Whether a filesystem trace renames anything. -/
def hasRename (ops : List FSOp) : Bool :=
  ops.any fun op =>
    match op with
    | .rename _ _ => true
    | _ => false

/-- Sum of the five status counters of `QueueStats`. -/
def sumCounters (st : QueueStats) : Nat :=
  st.pending + st.active + st.completed + st.failed + st.cancelled

/-! ## Concrete inputs for the counterexamples -/

/-- A persisted item in a non-terminal (pending) status with nonzero
progress: `LoadQueue` leaves it untouched. -/
def c5BadItem : QueueItem :=
  { status := StatusPending, progress := 37, stage := "waiting" }

/-- A persisted item interrupted mid-mux. -/
def c5MuxItem : QueueItem :=
  { status := StatusMuxing, progress := 70, stage := "Muxing..." }

/-- Resolver links offering only a tidal URL. -/
def c1Links : SongLinks := { tidalURL := "https://tidal.com/track/1" }

/-- Environment in which the lucida health probe answers false while a tidal
URL is resolved and tidal-hifi and orpheus are unavailable. -/
def c1Env : Env :=
  { resolve := some c1Links,
    tidalHifiAvailable := false,
    lucidaAvailable := false,
    orpheusAvailable := false }

/-- Environment for the C1 witness: lucida yields a file for the resolved
tidal URL while tidal-hifi and orpheus are unavailable. -/
def c1WEnv : Env :=
  { resolve := some c1Links,
    lucidaDownload := fun _ => some "/tmp/a.flac" }

/-- A pending item with known metadata. -/
def c3Item : QueueItem :=
  { id := "i1", videoURL := "https://youtube.com/watch?v=abc",
    title := "Song", artist := "Artist" }

/-- Environment in which the video download fails, lucida yields an audio
file, and the FLAC creation step then fails. -/
def c3Env : Env :=
  { videoDownload := none,
    resolve := some c1Links,
    lucidaDownload := fun _ => some "/tmp/dl/audio.flac",
    createFLACOK := false }

/-- An errored queue item, as in the `RetryWithOverride` unit tests. -/
def c4Item : QueueItem :=
  { id := "e1", videoURL := "https://youtube.com/watch?v=abc",
    artist := "Old Artist", title := "Old Title", status := StatusError,
    error := "all_download_attempts_failed" }

/-- A retry override supplying only a music URL. -/
def c4Req : RetryOverrideRequest := { musicURL := "https://tidal.com/track/999" }

/-- The video info stage 1 passes on when the item's metadata is already
known. -/
def c2VI (it0 : QueueItem) : VideoInfo :=
  ⟨it0.title, it0.artist, it0.thumbnail, it0.duration⟩

/-- The item state at the moment the skip-detection copy fails and the run
falls through to stage 2. -/
def c2FallItem (it0 : QueueItem) : QueueItem :=
  { it0 with status := StatusOrganizing, progress := 90,
             stage := "Copying existing file..." }

/-- The item state after a failed video download: stage 2 marks the item
audio-only and moves straight to the audio stage. -/
def videoFailItem (it : QueueItem) : QueueItem :=
  { it with status := StatusDownloadingAudio, progress := 40,
            stage := "Video unavailable, downloading audio only...",
            audioOnly := true }

/-- Environment for the C3 witness: the video download fails and every
audio avenue fails as well. -/
def c3WEnv : Env := { videoDownload := none }

/-- A pending item with known metadata for the C2 witness. -/
def c2WItem : QueueItem := { id := "w2", title := "Song", artist := "Artist" }

/-- Environment for the C2 witness: the file index matches an existing file
whose path equals the computed target path. -/
def c2WEnv : Env :=
  { fileIndexPresent := true,
    findMatch := fun _ _ => some { path := "/old/file.mkv" },
    extOf := fun _ => ".mkv",
    genTemplatePath := fun ext => "/old/file" ++ ext }

/-- Endpoint behavior for the C8 witness: the first endpoint answers 503,
the second answers 200 with a successful body. -/
def c8Beh : String → Option HTTPResp :=
  fun e => if e == "a" then some ⟨503, {}⟩ else some ⟨200, { success := true }⟩

/-- Environment in which skip detection finds an existing file at a different
path and the copy fails, so the run falls back to the download stages. -/
def c6Env : Env :=
  { fileIndexPresent := true,
    findMatch := fun _ _ => some { path := "/old/file.mkv" },
    copyOK := fun _ _ => false,
    videoDownload := some "/tmp/v.mp4",
    extractOK := true,
    muxOK := true }

/-! # Theorems -/

/-! ## Claim C5: LoadQueue normalization -/

/-- Claim C5, counterexample: a persisted item in status `pending` — a
non-terminal status — with progress 37 is loaded unchanged by `LoadQueue`:
it is not normalized to progress 0 and its stage does not contain
"resumed", refuting the claim's "every item whose persisted status was
non-terminal" clause.  Only the five in-flight statuses are normalized. -/
theorem C5_counterexample :
    isTerminal c5BadItem.status = false ∧
    LoadQueue [c5BadItem] = [c5BadItem] ∧
    c5BadItem.progress ≠ 0 ∧
    containsResumed c5BadItem.stage = false := by
  decide

/-- Claim C5 (amended): after `LoadQueue` no item carries an in-flight
status; every item persisted in one of the five in-flight statuses is
normalized to `pending` with progress 0 and the stage
"Waiting... (resumed)", which contains "resumed"; every other item —
the already-pending ones included, not only the terminal ones — is loaded
unchanged. -/
theorem C5_loadQueue_normalization (persisted : List QueueItem) :
    (∀ it' ∈ LoadQueue persisted, isInFlight it'.status = false) ∧
    (∀ it ∈ persisted, isInFlight it.status = true →
      normalizeLoadedItem it =
        { it with status := StatusPending, progress := 0,
                  stage := "Waiting... (resumed)" } ∧
      containsResumed (normalizeLoadedItem it).stage = true) ∧
    (∀ it ∈ persisted, isInFlight it.status = false →
      normalizeLoadedItem it = it) := by
  refine ⟨?_, ?_, ?_⟩
  · intro it' h
    simp only [LoadQueue, List.mem_map] at h
    obtain ⟨it, -, rfl⟩ := h
    unfold normalizeLoadedItem
    split
    · show isInFlight StatusPending = false
      decide
    · rename_i hf
      simp [Bool.not_eq_true] at hf
      exact hf
  · intro it _ hf
    have hnorm : normalizeLoadedItem it =
        { it with status := StatusPending, progress := 0,
                  stage := "Waiting... (resumed)" } := by
      unfold normalizeLoadedItem
      rw [if_pos hf]
    refine ⟨hnorm, ?_⟩
    rw [hnorm]
    show containsResumed "Waiting... (resumed)" = true
    decide
  · intro it _ hf
    simp [normalizeLoadedItem, hf]

/-- Claim C5 witness: the amended theorem applied to a one-element queue
holding an item interrupted mid-mux. -/
theorem C5_witness :
    isInFlight c5MuxItem.status = true ∧
    normalizeLoadedItem c5MuxItem =
      { c5MuxItem with status := StatusPending, progress := 0,
                       stage := "Waiting... (resumed)" } :=
  ⟨by decide,
   ((C5_loadQueue_normalization [c5MuxItem]).2.1 c5MuxItem (by simp)
      (by decide)).1⟩

/-! ## Claim C7: SaveQueue atomicity -/

/-- Claim C7, counterexample: at a concrete queue state the filesystem trace
of `SaveQueue` contains no rename operation at all — the state is written
with one direct `os.WriteFile`, not via a temporary file renamed over
`queue.json`. -/
theorem C7_counterexample :
    ¬ atomicViaRename (SaveQueue [{ id := "a" }] "/data" 7)
        (GetQueueFilePath "/data") := by
  rintro ⟨tmp, data, -, -, hr⟩
  simp [SaveQueue, GetQueueFilePath] at hr

/-- Claim C7 (amended): `SaveQueue` writes the full item list plus the
updated-at timestamp as JSON to `<data_dir>/queue.json`, but through a single
direct write: the trace holds exactly one write, targeting `queue.json` with
the complete state, and no rename — the save is not atomic. -/
theorem C7_saveQueue_direct_write (items : List QueueItem) (dataPath : String)
    (now : Int) :
    writesOf (SaveQueue items dataPath now) =
      [(GetQueueFilePath dataPath, ⟨items, now⟩)] ∧
    hasRename (SaveQueue items dataPath now) = false ∧
    ¬ atomicViaRename (SaveQueue items dataPath now)
        (GetQueueFilePath dataPath) := by
  refine ⟨rfl, rfl, ?_⟩
  rintro ⟨tmp, data, -, -, hr⟩
  simp [SaveQueue] at hr

/-! ## Claim C9: GetStats partitions the queue -/

theorem statsBump_total (st : QueueStats) (s : String) :
    (statsBump st s).total = st.total := by
  unfold statsBump
  repeat' split
  all_goals rfl

theorem statsBump_sum (st : QueueStats) (s : String) (h : s ∈ allStatuses) :
    sumCounters (statsBump st s) = sumCounters st + 1 := by
  simp only [allStatuses, List.mem_cons, List.not_mem_nil, or_false] at h
  rcases h with rfl | rfl | rfl | rfl | rfl | rfl | rfl | rfl | rfl <;>
    simp [statsBump, sumCounters, isInFlight, StatusPending,
      StatusFetchingInfo, StatusDownloadingVideo, StatusDownloadingAudio,
      StatusMuxing, StatusOrganizing, StatusComplete, StatusError,
      StatusCancelled] <;>
    omega

theorem getStats_fold (items : List QueueItem) :
    ∀ st : QueueStats, (∀ it ∈ items, it.status ∈ allStatuses) →
      sumCounters
          (items.foldl (fun st it => statsBump st it.status) st) =
        sumCounters st + items.length := by
  induction items with
  | nil => intro st _; simp
  | cons hd tl ih =>
    intro st h
    have hhd : hd.status ∈ allStatuses := h hd (by simp)
    have htl : ∀ it ∈ tl, it.status ∈ allStatuses := by
      intro it hit; exact h it (by simp [hit])
    simp only [List.foldl_cons, List.length_cons]
    rw [ih _ htl, statsBump_sum _ _ hhd]
    omega

theorem getStats_fold_total (items : List QueueItem) :
    ∀ st : QueueStats,
      (items.foldl (fun st it => statsBump st it.status) st).total =
        st.total := by
  induction items with
  | nil => intro st; rfl
  | cons hd tl ih =>
    intro st
    simp only [List.foldl_cons]
    rw [ih, statsBump_total]

/-- Claim C9: when every item carries one of the nine defined statuses,
`GetStats` classifies each item into exactly one of the five counters, so
the total equals the sum of pending, active, completed, failed and
cancelled. -/
theorem C9_getStats_partition (items : List QueueItem)
    (h : ∀ it ∈ items, it.status ∈ allStatuses) :
    (GetStats items).total =
      (GetStats items).pending + (GetStats items).active +
      (GetStats items).completed + (GetStats items).failed +
      (GetStats items).cancelled := by
  unfold GetStats
  rw [getStats_fold_total items { total := items.length }]
  have hsum := getStats_fold items { total := items.length } h
  rw [show sumCounters { total := items.length } = 0 from rfl] at hsum
  unfold sumCounters at hsum
  have htot : ({ total := items.length : QueueStats }).total = items.length :=
    rfl
  rw [htot]
  omega

/-- Claim C9 witness: the partition at a concrete five-item queue. -/
theorem C9_witness :
    (∀ it ∈ [({ status := StatusPending } : QueueItem),
             { status := StatusMuxing }, { status := StatusComplete },
             { status := StatusError }, { status := StatusCancelled }],
        it.status ∈ allStatuses) ∧
    (GetStats [({ status := StatusPending } : QueueItem),
               { status := StatusMuxing }, { status := StatusComplete },
               { status := StatusError }, { status := StatusCancelled }]).total =
      (GetStats [({ status := StatusPending } : QueueItem),
                 { status := StatusMuxing }, { status := StatusComplete },
                 { status := StatusError }, { status := StatusCancelled }]).pending +
      (GetStats [({ status := StatusPending } : QueueItem),
                 { status := StatusMuxing }, { status := StatusComplete },
                 { status := StatusError }, { status := StatusCancelled }]).active +
      (GetStats [({ status := StatusPending } : QueueItem),
                 { status := StatusMuxing }, { status := StatusComplete },
                 { status := StatusError }, { status := StatusCancelled }]).completed +
      (GetStats [({ status := StatusPending } : QueueItem),
                 { status := StatusMuxing }, { status := StatusComplete },
                 { status := StatusError }, { status := StatusCancelled }]).failed +
      (GetStats [({ status := StatusPending } : QueueItem),
                 { status := StatusMuxing }, { status := StatusComplete },
                 { status := StatusError }, { status := StatusCancelled }]).cancelled :=
  ⟨by decide, C9_getStats_partition _ (by decide)⟩

/-! ## Claim C10: GenerateM3U8 -/

theorem m3u8_filterMap (rel : String → String → Option String)
    (outputDir : String) (items : List QueueItem) :
    items.filterMap (m3u8Entry rel outputDir) =
      (items.filter (fun it => !(it.outputPath == ""))).map
        (m3u8EntryText rel outputDir) := by
  induction items with
  | nil => rfl
  | cons hd tl ih =>
    by_cases h : (hd.outputPath == "") = true
    · simp [m3u8Entry, h, List.filterMap_cons, List.filter_cons, ih]
    · simp [m3u8Entry, h, List.filterMap_cons, List.filter_cons, ih]

/-- Claim C10: `GenerateM3U8` on an empty slice returns without creating a
file; otherwise the written playlist is the "#EXTM3U" header followed by
exactly one EXTINF-plus-path entry per input item with a non-empty
output path, in order; a non-positive duration is emitted as -1; and the
entry's path line is the relative path whenever one can be computed. -/
theorem C10_generateM3U8 (rel : String → String → Option String)
    (sanitize : String → String) (items : List QueueItem)
    (outputDir playlistName : String) :
    (items = [] →
      GenerateM3U8 rel sanitize items outputDir playlistName = none) ∧
    (items ≠ [] → ∃ p,
      GenerateM3U8 rel sanitize items outputDir playlistName =
        some (p, "#EXTM3U\n" ++ joinAll
          ((items.filter (fun it => !(it.outputPath == ""))).map
            (m3u8EntryText rel outputDir)))) ∧
    (∀ it : QueueItem, it.duration ≤ 0 →
      m3u8EntryText rel outputDir it =
        "#EXTINF:-1," ++ (if it.artist == "" then it.title
          else it.artist ++ " - " ++ it.title) ++ "\n" ++
        ((rel outputDir it.outputPath).getD it.outputPath) ++ "\n") ∧
    (∀ it : QueueItem, ∀ r, rel outputDir it.outputPath = some r →
      ∃ pre, m3u8EntryText rel outputDir it = pre ++ r ++ "\n") := by
  refine ⟨?_, ?_, ?_, ?_⟩
  · rintro rfl
    rfl
  · intro h
    unfold GenerateM3U8
    rw [if_neg (by simpa using h)]
    exact ⟨_, by rw [m3u8_filterMap]⟩
  · intro it h
    unfold m3u8EntryText
    rw [if_pos h]
    rfl
  · intro it r h
    unfold m3u8EntryText
    rw [h]
    exact ⟨_, rfl⟩

/-- Claim C10 witness: a one-item playlist with unknown duration, where the
relative-path computation fails and the absolute path is used. -/
theorem C10_witness :
    ([({ outputPath := "/m/a.mkv", title := "T", artist := "A",
         duration := 0 } : QueueItem)] ≠ ([] : List QueueItem)) ∧
    (∃ p, GenerateM3U8 (fun _ _ => none) (fun s => s)
        [{ outputPath := "/m/a.mkv", title := "T", artist := "A",
           duration := 0 }] "/m" "pl" =
      some (p, "#EXTM3U\n" ++ joinAll
        (([({ outputPath := "/m/a.mkv", title := "T", artist := "A",
              duration := 0 } : QueueItem)].filter
            (fun it => !(it.outputPath == ""))).map
          (m3u8EntryText (fun _ _ => none) "/m")))) :=
  ⟨by decide,
   (C10_generateM3U8 (fun _ _ => none) (fun s => s)
      [{ outputPath := "/m/a.mkv", title := "T", artist := "A",
         duration := 0 }] "/m" "pl").2.1 (by decide)⟩

/-! ## Claim C4: RetryWithOverride -/

/-- Claim C4: `RetryWithOverride` succeeds only from status `error`; it sets
status to `pending`, clears `error`, `match_candidates` and
`match_diagnostics`, applies exactly the supplied overrides (a supplied
`music_url` overwrites the stored catalog URL), and preserves every other
field, the original `video_url` included; with an empty override the result
is the stored item with only the status set and the diagnostic triplet
cleared. -/
theorem C4_retryWithOverride (items : List QueueItem) (id : String)
    (req : RetryOverrideRequest) :
    (items.find? (fun x => x.id == id) = none →
      RetryWithOverride items id req = none) ∧
    (∀ it, items.find? (fun x => x.id == id) = some it →
      it.status ≠ StatusError → RetryWithOverride items id req = none) ∧
    (∀ it, items.find? (fun x => x.id == id) = some it →
      it.status = StatusError →
      ∃ it', RetryWithOverride items id req =
          some (items.map (fun x => if x.id == id then it' else x), it') ∧
        it'.status = StatusPending ∧ it'.error = "" ∧
        it'.matchCandidates = none ∧ it'.matchDiagnostics = none ∧
        it'.videoURL = it.videoURL ∧ it'.id = it.id ∧
        (req.musicURL ≠ "" → it'.spotifyURL = req.musicURL) ∧
        (req.musicURL = "" → it'.spotifyURL = it.spotifyURL) ∧
        (req.artist = "" → it'.artist = it.artist) ∧
        (req.title = "" → it'.title = it.title) ∧
        it'.album = it.album ∧ it'.thumbnail = it.thumbnail ∧
        it'.duration = it.duration ∧ it'.playlistName = it.playlistName ∧
        it'.playlistPosition = it.playlistPosition ∧
        it'.progress = it.progress ∧ it'.stage = it.stage ∧
        it'.audioSource = it.audioSource ∧ it'.videoPath = it.videoPath ∧
        it'.audioPath = it.audioPath ∧ it'.outputPath = it.outputPath ∧
        it'.audioOnly = it.audioOnly ∧ it'.fileSize = it.fileSize ∧
        (req = {} →
          it' = { it with status := StatusPending, error := "",
                          matchCandidates := none,
                          matchDiagnostics := none })) := by
  refine ⟨?_, ?_, ?_⟩
  · intro h
    unfold RetryWithOverride
    rw [h]
  · intro it hfind hne
    have hb : (it.status != StatusError) = true := by simp [hne]
    simp only [RetryWithOverride, hfind]
    rw [if_pos hb]
  · intro it hfind he
    have hb : ¬((it.status != StatusError) = true) := by simp [he]
    simp only [RetryWithOverride, hfind]
    rw [if_neg hb]
    refine ⟨_, rfl, ?_⟩
    refine ⟨rfl, rfl, rfl, rfl, rfl, rfl, ?_, ?_, ?_, ?_, rfl, rfl, rfl, rfl,
            rfl, rfl, rfl, rfl, rfl, rfl, rfl, rfl, rfl, ?_⟩
    · intro hm
      show (if req.musicURL != "" then req.musicURL else it.spotifyURL) =
        req.musicURL
      rw [if_pos (by simp [hm])]
    · intro hm
      show (if req.musicURL != "" then req.musicURL else it.spotifyURL) =
        it.spotifyURL
      rw [hm]
      rfl
    · intro ha
      show (if req.artist != "" then req.artist else it.artist) = it.artist
      rw [ha]
      rfl
    · intro ht
      show (if req.title != "" then req.title else it.title) = it.title
      rw [ht]
      rfl
    · rintro rfl
      rfl

/-- Claim C4 witness: the override with only a music URL, applied to a
one-item queue in `error` status: the item re-enters pending, the original
video URL is preserved, and the catalog URL is overwritten. -/
theorem C4_witness :
    ∃ it', (RetryWithOverride [c4Item] "e1" c4Req =
        some (List.map (fun x => if x.id == "e1" then it' else x) [c4Item],
          it')) ∧
      it'.status = StatusPending ∧ it'.videoURL = c4Item.videoURL ∧
      it'.spotifyURL = "https://tidal.com/track/999" := by
  obtain ⟨it', h1, h2, h3, h4, h5, h6, h7, h8, -⟩ :=
    (C4_retryWithOverride [c4Item] "e1" c4Req).2.2 c4Item (by decide) rfl
  exact ⟨it', h1, h2, h6, h8 (by decide)⟩

/-! ## Claim C8: multi-endpoint fallback -/

theorem requestOverEndpoints_cons_netFail (beh : String → Option HTTPResp)
    (e : String) (rest : List String) (h : beh e = none) :
    requestOverEndpoints beh (e :: rest) =
      (e :: (requestOverEndpoints beh rest).1,
       (requestOverEndpoints beh rest).2) := by
  rcases h2 : requestOverEndpoints beh rest with ⟨t, r⟩
  simp [requestOverEndpoints, h, h2]

theorem requestOverEndpoints_cons_5xx (beh : String → Option HTTPResp)
    (e : String) (rest : List String) (resp : HTTPResp)
    (h : beh e = some resp) (hc : 500 ≤ resp.code) :
    requestOverEndpoints beh (e :: rest) =
      (e :: (requestOverEndpoints beh rest).1,
       (requestOverEndpoints beh rest).2) := by
  rcases h2 : requestOverEndpoints beh rest with ⟨t, r⟩
  simp [requestOverEndpoints, h, hc, h2]

theorem requestOverEndpoints_cons_ok (beh : String → Option HTTPResp)
    (e : String) (rest : List String) (resp : HTTPResp)
    (h : beh e = some resp) (hc : ¬ 500 ≤ resp.code) :
    requestOverEndpoints beh (e :: rest) = ([e], some resp) := by
  simp [requestOverEndpoints, h, hc]

theorem requestOverEndpoints_spec (beh : String → Option HTTPResp) :
    ∀ endpoints : List String,
      (∀ resp, (requestOverEndpoints beh endpoints).2 = some resp →
        ∃ pre e post, endpoints = pre ++ e :: post ∧
          (requestOverEndpoints beh endpoints).1 = pre ++ [e] ∧
          (∀ e' ∈ pre, endpointFails beh e') ∧
          beh e = some resp ∧ resp.code < 500) ∧
      ((requestOverEndpoints beh endpoints).2 = none →
        (requestOverEndpoints beh endpoints).1 = endpoints ∧
        ∀ e ∈ endpoints, endpointFails beh e) := by
  intro endpoints
  induction endpoints with
  | nil =>
    refine ⟨?_, ?_⟩
    · intro resp h
      simp [requestOverEndpoints] at h
    · intro _
      exact ⟨rfl, by simp⟩
  | cons e rest ih =>
    by_cases hfail : endpointFails beh e
    · have heq : requestOverEndpoints beh (e :: rest) =
          (e :: (requestOverEndpoints beh rest).1,
           (requestOverEndpoints beh rest).2) := by
        rcases hfail with hn | ⟨r, hr, hc⟩
        · exact requestOverEndpoints_cons_netFail beh e rest hn
        · exact requestOverEndpoints_cons_5xx beh e rest r hr hc
      refine ⟨?_, ?_⟩
      · intro resp h
        rw [heq] at h
        obtain ⟨pre, e', post, hsplit, htried, hpre, hbeh, hcode⟩ :=
          ih.1 resp h
        refine ⟨e :: pre, e', post, by simp [hsplit], ?_, ?_, hbeh, hcode⟩
        · rw [heq, htried]
          rfl
        · intro x hx
          rcases List.mem_cons.mp hx with rfl | hx'
          · exact hfail
          · exact hpre x hx'
      · intro h
        rw [heq] at h
        obtain ⟨htried, hall⟩ := ih.2 h
        refine ⟨?_, ?_⟩
        · rw [heq, htried]
        · intro x hx
          rcases List.mem_cons.mp hx with rfl | hx'
          · exact hfail
          · exact hall x hx'
    · rcases hbe : beh e with - | resp
      · exact absurd (Or.inl hbe) hfail
      · have hcode : ¬ 500 ≤ resp.code := by
          intro hc
          exact hfail (Or.inr ⟨resp, hbe, hc⟩)
        have heq := requestOverEndpoints_cons_ok beh e rest resp hbe hcode
        refine ⟨?_, ?_⟩
        · intro resp' h
          rw [heq] at h
          obtain rfl : resp = resp' := by simpa using h
          exact ⟨[], e, rest, rfl, by rw [heq]; rfl, by simp, hbe, by omega⟩
        · intro h
          rw [heq] at h
          simp at h

/-- Claim C8: a service configured with multiple base URLs attempts each
request against its endpoints in order, moving to the next endpoint on a 5xx
response or a network failure; any response below 500 — a 4xx in particular —
is authoritative and ends the scan, so it is never retried on a later
endpoint; and the lucida service's availability probe and track-data fetch
fall back to the second endpoint when the first returns 5xx. -/
theorem C8_multi_endpoint_fallback (beh : String → Option HTTPResp)
    (endpoints : List String) :
    (∀ resp, (requestOverEndpoints beh endpoints).2 = some resp →
      ∃ pre e post, endpoints = pre ++ e :: post ∧
        (requestOverEndpoints beh endpoints).1 = pre ++ [e] ∧
        (∀ e' ∈ pre, endpointFails beh e') ∧
        beh e = some resp ∧ resp.code < 500) ∧
    ((requestOverEndpoints beh endpoints).2 = none →
      (requestOverEndpoints beh endpoints).1 = endpoints ∧
      ∀ e ∈ endpoints, endpointFails beh e) ∧
    (∀ e rest resp, beh e = some resp → resp.code < 500 →
      requestOverEndpoints beh (e :: rest) = ([e], some resp)) ∧
    (∀ e1 e2 r1 r2, endpoints = [e1, e2] → beh e1 = some r1 →
      500 ≤ r1.code → beh e2 = some r2 → r2.code < 500 →
      lucidaIsAvailable beh endpoints = true ∧
      fetchTrackData beh endpoints =
        (if r2.body.success then FetchResult.ok r2.body
         else FetchResult.apiError r2.body.errorMsg)) := by
  refine ⟨(requestOverEndpoints_spec beh endpoints).1,
          (requestOverEndpoints_spec beh endpoints).2, ?_, ?_⟩
  · intro e rest resp hbe hcode
    exact requestOverEndpoints_cons_ok beh e rest resp hbe (by omega)
  · rintro e1 e2 r1 r2 rfl hb1 hc1 hb2 hc2
    have h2 : requestOverEndpoints beh [e2] = ([e2], some r2) :=
      requestOverEndpoints_cons_ok beh e2 [] r2 hb2 (by omega)
    have h1 : requestOverEndpoints beh [e1, e2] =
        (e1 :: (requestOverEndpoints beh [e2]).1,
         (requestOverEndpoints beh [e2]).2) :=
      requestOverEndpoints_cons_5xx beh e1 [e2] r1 hb1 hc1
    rw [h2] at h1
    refine ⟨?_, ?_⟩
    · unfold lucidaIsAvailable
      rw [h1]
    · unfold fetchTrackData
      rw [h1]

/-- Claim C8 witness: two endpoints where the first answers 503 and the
second answers 200 with a successful body — the probe reports available and
the track fetch returns the second endpoint's data. -/
theorem C8_witness :
    lucidaIsAvailable c8Beh ["a", "b"] = true ∧
    fetchTrackData c8Beh ["a", "b"] = FetchResult.ok { success := true } := by
  have h := (C8_multi_endpoint_fallback c8Beh ["a", "b"]).2.2.2 "a" "b"
    ⟨503, {}⟩ ⟨200, { success := true }⟩ rfl (by decide) (by decide)
    (by decide) (by decide)
  exact ⟨h.1, by rw [h.2]; rfl⟩

/-! ## Claim C2: skip detection -/

theorem stage1_known_title (env : Env) (it0 : QueueItem) (ht : it0.title ≠ "") :
    stage1 env (startItem it0) = (startItem it0, [], some (c2VI it0)) := by
  unfold stage1
  rw [if_neg (by simp [startItem, ht])]
  rfl

/-- Claim C2: when the item's title and artist match an existing file-index
entry in stage 1.5, the run (a) with an existing path equal to the computed
target finishes complete at progress 100 and stage "Skipped (already
exists)" with no download update in the trace, (b) with differing paths and
a successful copy finishes complete at stage "Copied from existing", and
(c) with a failed copy falls through to the normal download pipeline from
stage 2. -/
theorem C2_skip_detection (env : Env) (it0 : QueueItem) (ex : ExistingFile)
    (h0 : it0.status = StatusPending) (h1 : env.tempDirOK = true)
    (ht : it0.title ≠ "") (hfi : env.fileIndexPresent = true)
    (hm : env.findMatch it0.title it0.artist = some ex) :
    (ex.path = stage15Target env it0 ex →
      (processItem env it0).1.status = StatusComplete ∧
      (processItem env it0).1.progress = 100 ∧
      (processItem env it0).1.stage = "Skipped (already exists)" ∧
      (processItem env it0).1.outputPath = ex.path ∧
      (processItem env it0).2 =
        [⟨StatusOrganizing, 80, "Found existing file..."⟩,
         ⟨StatusComplete, 100, "Skipped (already exists)"⟩]) ∧
    (ex.path ≠ stage15Target env it0 ex →
      env.copyOK ex.path (stage15Target env it0 ex) = true →
      (processItem env it0).1.status = StatusComplete ∧
      (processItem env it0).1.progress = 100 ∧
      (processItem env it0).1.stage = "Copied from existing" ∧
      (processItem env it0).1.outputPath = stage15Target env it0 ex ∧
      (processItem env it0).2 =
        [⟨StatusOrganizing, 80, "Found existing file..."⟩,
         ⟨StatusOrganizing, 90, "Copying existing file..."⟩,
         ⟨StatusComplete, 100, "Copied from existing"⟩]) ∧
    (ex.path ≠ stage15Target env it0 ex →
      env.copyOK ex.path (stage15Target env it0 ex) = false →
      processItem env it0 =
        ((runFromStage2 env (c2FallItem it0) (c2VI it0)).1,
         [⟨StatusOrganizing, 80, "Found existing file..."⟩,
          ⟨StatusOrganizing, 90, "Copying existing file..."⟩] ++
           (runFromStage2 env (c2FallItem it0) (c2VI it0)).2)) := by
  have hne : (it0.status != StatusPending) = false := by simp [h0]
  have hs1 := stage1_known_title env it0 ht
  have hvt : ¬((c2VI it0).title = "") := by simpa [c2VI] using ht
  refine ⟨?_, ?_, ?_⟩
  · intro hpath
    simp only [processItem, hne, Bool.false_eq_true, if_false, h1,
      Bool.not_true, hs1]
    simp [stage15, hfi, c2VI, hm, updStatus, stage15Target, startItem]
      at hpath ⊢
    simp [← hpath, ht]
  · intro hpath hcopy
    simp only [processItem, hne, Bool.false_eq_true, if_false, h1,
      Bool.not_true, hs1]
    simp [stage15, hfi, c2VI, hm, updStatus, stage15Target, startItem]
      at hpath hcopy ⊢
    simp [hpath, hcopy, ht]
  · intro hpath hcopy
    simp only [processItem, hne, Bool.false_eq_true, if_false, h1,
      Bool.not_true, hs1]
    simp [stage15, hfi, c2VI, hm, updStatus, stage15Target, startItem]
      at hpath hcopy ⊢
    simp [hpath, hcopy, ht, c2FallItem, c2VI, startItem]

/-- Claim C2 witness: a concrete run hitting the skip case — the matched
existing file already sits at the computed target path, so the item
completes at progress 100 with the skipped stage and only the two
organizing/complete updates in the trace. -/
theorem C2_witness :
    (processItem c2WEnv c2WItem).1.status = StatusComplete ∧
    (processItem c2WEnv c2WItem).1.progress = 100 ∧
    (processItem c2WEnv c2WItem).1.stage = "Skipped (already exists)" ∧
    (processItem c2WEnv c2WItem).1.outputPath = "/old/file.mkv" ∧
    (processItem c2WEnv c2WItem).2 =
      [⟨StatusOrganizing, 80, "Found existing file..."⟩,
       ⟨StatusComplete, 100, "Skipped (already exists)"⟩] := by
  have h := (C2_skip_detection c2WEnv c2WItem { path := "/old/file.mkv" }
    rfl rfl (by decide) rfl rfl).1 (by decide)
  exact ⟨h.1, h.2.1, h.2.2.1, h.2.2.2.1, h.2.2.2.2⟩

/-! ## Claim C3: video failure falls back to audio-only -/

theorem stage2_none (env : Env) (it : QueueItem)
    (hvid : env.videoDownload = none) :
    stage2 env it =
      (videoFailItem it,
       [⟨StatusDownloadingVideo, 10, "Downloading video..."⟩,
        ⟨StatusDownloadingAudio, 40,
         "Video unavailable, downloading audio only..."⟩],
       "", true) := by
  simp only [stage2, updStatus, hvid]
  rfl

theorem stage3_audioOnly (env : Env) (it : QueueItem) (vi : VideoInfo)
    (vp : String) : (stage3 env it vi vp).1.audioOnly = it.audioOnly := by
  simp only [stage3, updStatus]
  repeat' split
  all_goals rfl

theorem stage4_audioOnly (env : Env) (it : QueueItem) (ao : Bool) :
    (stage4 env it ao).1.audioOnly = it.audioOnly := by
  simp only [stage4, updStatus]
  repeat' split
  all_goals rfl

theorem stage45_audioOnly (env : Env) (it : QueueItem) (vi : VideoInfo) :
    (stage45 env it vi).1.audioOnly = it.audioOnly := by
  simp only [stage45, updStatus]
  split
  all_goals rfl

theorem stage5_audioOnly (it : QueueItem) :
    (stage5 it).1.audioOnly = it.audioOnly := rfl

theorem stage6_audioOnly (env : Env) (it : QueueItem) (p : String) :
    (stage6 env it p).1.audioOnly = it.audioOnly := rfl

theorem stage3_none_error (env : Env) (it : QueueItem) (vi : VideoInfo) :
    (stage3 env it vi "").2.2 = none →
    (stage3 env it vi "").1.status = StatusError ∧
    (stage3 env it vi "").1.error ≠ "" := by
  simp only [stage3, updStatus]
  repeat' split
  all_goals intro h
  all_goals simp_all [SetItemError]

theorem stage4_mem70 (env : Env) (it : QueueItem) (ao : Bool) :
    (⟨StatusMuxing, 70, "Muxing video and audio..."⟩ : Update) ∈
      (stage4 env it ao).2.1 := by
  simp only [stage4, updStatus]
  repeat' split
  all_goals simp

theorem processItem_fall (env : Env) (it0 : QueueItem) (vi : VideoInfo)
    (it1 it15 : QueueItem) (tr1 tr15 : List Update)
    (h0 : it0.status = StatusPending) (h1 : env.tempDirOK = true)
    (hs1 : stage1 env (startItem it0) = (it1, tr1, some vi))
    (hs15 : stage15 env it1 vi = (it15, tr15, false)) :
    processItem env it0 =
      ((runFromStage2 env it15 vi).1,
       tr1 ++ tr15 ++ (runFromStage2 env it15 vi).2) := by
  have hne : (it0.status != StatusPending) = false := by simp [h0]
  simp only [processItem, hne, Bool.false_eq_true, if_false, h1,
    Bool.not_true, hs1, hs15]

/-- Claim C3 (amended): when the video download fails, the pipeline marks
the item audio-only and continues to the audio stage rather than failing;
the audio stage itself ends in `error` only when no audio service yields a
file (extraction being impossible without a video), in which case the final
status is `error` with a non-empty message and audio_only still true; when
some audio service does yield a file, the run continues into the muxing
stage — whose own failure can still error the item later. -/
theorem C3_videoFail (env : Env) (it0 : QueueItem) (vi : VideoInfo)
    (it1 it15 : QueueItem) (tr1 tr15 : List Update)
    (h0 : it0.status = StatusPending) (h1 : env.tempDirOK = true)
    (hs1 : stage1 env (startItem it0) = (it1, tr1, some vi))
    (hs15 : stage15 env it1 vi = (it15, tr15, false))
    (hvid : env.videoDownload = none) :
    (processItem env it0).1.audioOnly = true ∧
    ((⟨StatusDownloadingAudio, 40,
      "Video unavailable, downloading audio only..."⟩ : Update) ∈
      (processItem env it0).2) ∧
    ((stage3 env (videoFailItem it15) vi "").2.2 = none →
      (processItem env it0).1.status = StatusError ∧
      (processItem env it0).1.error ≠ "" ∧
      (processItem env it0).1.audioOnly = true) ∧
    (∀ p, (stage3 env (videoFailItem it15) vi "").2.2 = some p →
      (⟨StatusMuxing, 70, "Muxing video and audio..."⟩ : Update) ∈
        (processItem env it0).2) := by
  have hp := processItem_fall env it0 vi it1 it15 tr1 tr15 h0 h1 hs1 hs15
  have hs2 := stage2_none env it15 hvid
  have herr := stage3_none_error env (videoFailItem it15) vi
  have haud := stage3_audioOnly env (videoFailItem it15) vi ""
  rcases h3 : stage3 env (videoFailItem it15) vi "" with ⟨it3, tr3, audio⟩
  rw [h3] at herr haud
  simp only [videoFailItem] at haud
  simp only [hp]
  simp only [runFromStage2, hs2]
  simp only [h3]
  cases audio with
  | none =>
    refine ⟨by simpa using haud, by simp, ?_, ?_⟩
    · intro _
      exact ⟨herr rfl |>.1, herr rfl |>.2, by simpa using haud⟩
    · intro p hp'
      simp at hp'
  | some p0 =>
    have haud3 : it3.audioOnly = true := by simpa using haud
    rcases h4 : stage4 env it3 true with ⟨it4, tr4, mux⟩
    have haud4 : it4.audioOnly = true := by
      have := stage4_audioOnly env it3 true
      rw [h4] at this
      simpa [haud3] using this
    have hm70 := stage4_mem70 env it3 true
    rw [h4] at hm70
    simp only [h4]
    cases mux with
    | none =>
      refine ⟨haud4, by simp, ?_, ?_⟩
      · intro hc
        simp at hc
      · intro q hq
        simp only [List.mem_append]
        right
        simp only [List.mem_append, List.mem_cons]
        tauto
    | some outP =>
      refine ⟨?_, by simp, ?_, ?_⟩
      · rw [stage6_audioOnly, stage5_audioOnly, stage45_audioOnly]
        exact haud4
      · intro hc
        simp at hc
      · intro q hq
        simp only [List.mem_append]
        right
        simp only [List.mem_append, List.mem_cons]
        tauto

/-- Claim C3, counterexample: with the video download failing, the lucida
service yields an audio file (the item's audio source becomes "tidal"), yet
the item still reaches status `error`, because the FLAC-creation step
fails — refuting the claim that the item reaches `error` only when no audio
service yields a file. -/
theorem C3_counterexample :
    c3Env.videoDownload = none ∧
    (cascade c3Env c1Links c3Env.config.audioSourcePriority).2.2 =
      some ("tidal", "/tmp/dl/audio.flac") ∧
    (processItem c3Env c3Item).1.audioSource = "tidal" ∧
    (processItem c3Env c3Item).1.audioPath = "/tmp/dl/audio.flac" ∧
    (processItem c3Env c3Item).1.status = StatusError ∧
    (processItem c3Env c3Item).1.audioOnly = true :=
  ⟨rfl, rfl, rfl, rfl, rfl, rfl⟩

/-- Claim C3 witness: the amended theorem applied to a run where the video
download and every audio avenue fail — the item ends in `error` with
audio_only true. -/
theorem C3_witness :
    (processItem c3WEnv c3Item).1.audioOnly = true ∧
    (processItem c3WEnv c3Item).1.status = StatusError := by
  have h := C3_videoFail c3WEnv c3Item (c2VI c3Item) (startItem c3Item)
    (startItem c3Item) [] [] rfl rfl rfl rfl rfl
  exact ⟨h.1, (h.2.2.1 rfl).1⟩

/-! ## Claim C1: the audio-source cascade

Leaf-by-leaf equations for the per-source service ladder (`tryServices`) and
the source loop (`cascade`), then the cascade properties. -/

theorem tryServices_L1 (env : Env) (s url p : String)
    (h1 : (s == "tidal" && env.tidalHifiAvailable) = true)
    (hd : env.tidalHifiDownload url = some p) :
    tryServices env s url =
      ([⟨StatusDownloadingAudio, 51, "Downloading FLAC from Tidal..."⟩],
       [(s, "tidal-hifi")], some p) := by
  unfold tryServices
  rw [if_pos h1, hd]

theorem tryServices_L2 (env : Env) (s url q : String)
    (h1 : (s == "tidal" && env.tidalHifiAvailable) = true)
    (hd : env.tidalHifiDownload url = none)
    (hl : env.lucidaDownload url = some q) :
    tryServices env s url =
      ([⟨StatusDownloadingAudio, 51, "Downloading FLAC from Tidal..."⟩],
       [(s, "tidal-hifi"), (s, "lucida")], some q) := by
  unfold tryServices
  rw [if_pos h1, hd, hl]
  rfl

theorem tryServices_L3 (env : Env) (s url : String)
    (h1 : (s == "tidal" && env.tidalHifiAvailable) = true)
    (hd : env.tidalHifiDownload url = none)
    (hl : env.lucidaDownload url = none)
    (h2 : env.orpheusAvailable = true) :
    tryServices env s url =
      ([⟨StatusDownloadingAudio, 51, "Downloading FLAC from Tidal..."⟩,
        ⟨StatusDownloadingAudio, 52, "Trying OrpheusDL for " ++ s ++ "..."⟩],
       [(s, "tidal-hifi"), (s, "lucida"), (s, "orpheusdl")],
       env.orpheusDownload url) := by
  unfold tryServices
  rw [if_pos h1, hd, hl, h2]
  rfl

theorem tryServices_L4 (env : Env) (s url : String)
    (h1 : (s == "tidal" && env.tidalHifiAvailable) = true)
    (hd : env.tidalHifiDownload url = none)
    (hl : env.lucidaDownload url = none)
    (h2 : env.orpheusAvailable = false) :
    tryServices env s url =
      ([⟨StatusDownloadingAudio, 51, "Downloading FLAC from Tidal..."⟩],
       [(s, "tidal-hifi"), (s, "lucida")], none) := by
  unfold tryServices
  rw [if_pos h1, hd, hl, h2]
  rfl

theorem tryServices_L5 (env : Env) (s url q : String)
    (h1 : (s == "tidal" && env.tidalHifiAvailable) = false)
    (hl : env.lucidaDownload url = some q) :
    tryServices env s url = ([], [(s, "lucida")], some q) := by
  unfold tryServices
  rw [if_neg (by simp [h1]), hl]
  rfl

theorem tryServices_L6 (env : Env) (s url : String)
    (h1 : (s == "tidal" && env.tidalHifiAvailable) = false)
    (hl : env.lucidaDownload url = none)
    (h2 : env.orpheusAvailable = true) :
    tryServices env s url =
      ([⟨StatusDownloadingAudio, 52, "Trying OrpheusDL for " ++ s ++ "..."⟩],
       [(s, "lucida"), (s, "orpheusdl")], env.orpheusDownload url) := by
  unfold tryServices
  rw [if_neg (by simp [h1]), hl, h2]
  rfl

theorem tryServices_L7 (env : Env) (s url : String)
    (h1 : (s == "tidal" && env.tidalHifiAvailable) = false)
    (hl : env.lucidaDownload url = none)
    (h2 : env.orpheusAvailable = false) :
    tryServices env s url = ([], [(s, "lucida")], none) := by
  unfold tryServices
  rw [if_neg (by simp [h1]), hl, h2]
  rfl

theorem tryServices_attempts (env : Env) (s url : String) :
    ∀ x ∈ (tryServices env s url).2.1, x.1 = s ∧
      (x.2 = "tidal-hifi" → s = "tidal" ∧ env.tidalHifiAvailable = true) ∧
      (x.2 = "orpheusdl" → env.orpheusAvailable = true) ∧
      (x.2 = "tidal-hifi" ∨ x.2 = "lucida" ∨ x.2 = "orpheusdl") := by
  intro x hx
  by_cases h1 : (s == "tidal" && env.tidalHifiAvailable) = true
  · have h1' : s = "tidal" ∧ env.tidalHifiAvailable = true := by
      simpa using h1
    rcases hd : env.tidalHifiDownload url with - | p
    · rcases hl : env.lucidaDownload url with - | q
      · by_cases h2 : env.orpheusAvailable = true
        · rw [tryServices_L3 env s url h1 hd hl h2] at hx
          simp only [List.mem_cons, List.not_mem_nil, or_false] at hx
          rcases hx with rfl | rfl | rfl <;> simp [h1', h2]
        · rw [tryServices_L4 env s url h1 hd hl
            (by simpa using h2)] at hx
          simp only [List.mem_cons, List.not_mem_nil, or_false] at hx
          rcases hx with rfl | rfl <;> simp [h1']
      · rw [tryServices_L2 env s url q h1 hd hl] at hx
        simp only [List.mem_cons, List.not_mem_nil, or_false] at hx
        rcases hx with rfl | rfl <;> simp [h1']
    · rw [tryServices_L1 env s url p h1 hd] at hx
      simp only [List.mem_cons, List.not_mem_nil, or_false] at hx
      rcases hx with rfl
      simp [h1']
  · have h1' : (s == "tidal" && env.tidalHifiAvailable) = false := by
      simpa using h1
    rcases hl : env.lucidaDownload url with - | q
    · by_cases h2 : env.orpheusAvailable = true
      · rw [tryServices_L6 env s url h1' hl h2] at hx
        simp only [List.mem_cons, List.not_mem_nil, or_false] at hx
        rcases hx with rfl | rfl <;> simp [h2]
      · rw [tryServices_L7 env s url h1' hl (by simpa using h2)] at hx
        simp only [List.mem_cons, List.not_mem_nil, or_false] at hx
        rcases hx with rfl
        simp
    · rw [tryServices_L5 env s url q h1' hl] at hx
      simp only [List.mem_cons, List.not_mem_nil, or_false] at hx
      rcases hx with rfl
      simp

theorem tryServices_order (env : Env) (s url : String) :
    (tryServices env s url).2.1 = [(s, "tidal-hifi")] ∨
    (tryServices env s url).2.1 = [(s, "tidal-hifi"), (s, "lucida")] ∨
    (tryServices env s url).2.1 =
      [(s, "tidal-hifi"), (s, "lucida"), (s, "orpheusdl")] ∨
    (tryServices env s url).2.1 = [(s, "lucida")] ∨
    (tryServices env s url).2.1 = [(s, "lucida"), (s, "orpheusdl")] := by
  by_cases h1 : (s == "tidal" && env.tidalHifiAvailable) = true
  · rcases hd : env.tidalHifiDownload url with - | p
    · rcases hl : env.lucidaDownload url with - | q
      · by_cases h2 : env.orpheusAvailable = true
        · rw [tryServices_L3 env s url h1 hd hl h2]; simp
        · rw [tryServices_L4 env s url h1 hd hl (by simpa using h2)]; simp
      · rw [tryServices_L2 env s url q h1 hd hl]; simp
    · rw [tryServices_L1 env s url p h1 hd]; simp
  · have h1' : (s == "tidal" && env.tidalHifiAvailable) = false := by
      simpa using h1
    rcases hl : env.lucidaDownload url with - | q
    · by_cases h2 : env.orpheusAvailable = true
      · rw [tryServices_L6 env s url h1' hl h2]; simp
      · rw [tryServices_L7 env s url h1' hl (by simpa using h2)]; simp
    · rw [tryServices_L5 env s url q h1' hl]; simp

theorem tryServices_lucida_always (env : Env) (s url : String)
    (h : (s == "tidal" && env.tidalHifiAvailable) = false ∨
      env.tidalHifiDownload url = none) :
    (s, "lucida") ∈ (tryServices env s url).2.1 := by
  by_cases h1 : (s == "tidal" && env.tidalHifiAvailable) = true
  · have hd : env.tidalHifiDownload url = none := by
      rcases h with h | h
      · rw [h1] at h; cases h
      · exact h
    rcases hl : env.lucidaDownload url with - | q
    · by_cases h2 : env.orpheusAvailable = true
      · rw [tryServices_L3 env s url h1 hd hl h2]; simp
      · rw [tryServices_L4 env s url h1 hd hl (by simpa using h2)]; simp
    · rw [tryServices_L2 env s url q h1 hd hl]; simp
  · have h1' : (s == "tidal" && env.tidalHifiAvailable) = false := by
      simpa using h1
    rcases hl : env.lucidaDownload url with - | q
    · by_cases h2 : env.orpheusAvailable = true
      · rw [tryServices_L6 env s url h1' hl h2]; simp
      · rw [tryServices_L7 env s url h1' hl (by simpa using h2)]; simp
    · rw [tryServices_L5 env s url q h1' hl]; simp

theorem cascade_cons_skip (env : Env) (links : SongLinks) (s : String)
    (rest : List String) (hurl : (urlForSource links s == "") = true) :
    cascade env links (s :: rest) = cascade env links rest := by
  simp [cascade, hurl]

theorem cascade_cons_hit (env : Env) (links : SongLinks) (s : String)
    (rest : List String) (tr : List Update) (att : List (String × String))
    (p : String) (hurl : (urlForSource links s == "") = false)
    (ht : tryServices env s (urlForSource links s) = (tr, att, some p)) :
    cascade env links (s :: rest) =
      (⟨StatusDownloadingAudio, 50, "Downloading from " ++ s ++ "..."⟩ :: tr,
       att, some (s, p)) := by
  simp [cascade, hurl, ht]

theorem cascade_cons_miss (env : Env) (links : SongLinks) (s : String)
    (rest : List String) (tr : List Update) (att : List (String × String))
    (hurl : (urlForSource links s == "") = false)
    (ht : tryServices env s (urlForSource links s) = (tr, att, none)) :
    cascade env links (s :: rest) =
      (⟨StatusDownloadingAudio, 50, "Downloading from " ++ s ++ "..."⟩ ::
        (tr ++ (cascade env links rest).1),
       att ++ (cascade env links rest).2.1,
       (cascade env links rest).2.2) := by
  rcases hc : cascade env links rest with ⟨tr', att', r'⟩
  simp [cascade, hurl, ht, hc]

theorem cascade_attempts_mem (env : Env) (links : SongLinks) :
    ∀ (priority : List String) (x : String × String),
      x ∈ (cascade env links priority).2.1 →
      x.1 ∈ priority ∧ urlForSource links x.1 ≠ "" ∧
      x ∈ (tryServices env x.1 (urlForSource links x.1)).2.1 := by
  intro priority
  induction priority with
  | nil => intro x hx; simp [cascade] at hx
  | cons s rest ih =>
    intro x hx
    by_cases hurl : (urlForSource links s == "") = true
    · rw [cascade_cons_skip env links s rest hurl] at hx
      obtain ⟨h1, h2, h3⟩ := ih x hx
      exact ⟨by simp [h1], h2, h3⟩
    · have hurl' : (urlForSource links s == "") = false := by
        simpa using hurl
      rcases ht : tryServices env s (urlForSource links s) with ⟨tr, att, r⟩
      cases r with
      | some p =>
        rw [cascade_cons_hit env links s rest tr att p hurl' ht] at hx
        have hxa : x ∈ att := hx
        have hx1 : x.1 = s :=
          (tryServices_attempts env s (urlForSource links s) x
            (by rw [ht]; exact hxa)).1
        refine ⟨by simp [hx1], ?_, ?_⟩
        · rw [hx1]; simpa using hurl
        · rw [hx1, ht]; exact hxa
      | none =>
        rw [cascade_cons_miss env links s rest tr att hurl' ht] at hx
        rcases List.mem_append.mp hx with hxa | hxr
        · have hx1 : x.1 = s :=
            (tryServices_attempts env s (urlForSource links s) x
              (by rw [ht]; exact hxa)).1
          refine ⟨by simp [hx1], ?_, ?_⟩
          · rw [hx1]; simpa using hurl
          · rw [hx1, ht]; exact hxa
        · obtain ⟨h1, h2, h3⟩ := ih x hxr
          exact ⟨by simp [h1], h2, h3⟩

theorem cascade_lucida_independent (env : Env) (links : SongLinks)
    (b : Bool) :
    ∀ priority : List String,
      cascade { env with lucidaAvailable := b } links priority =
        cascade env links priority := by
  intro priority
  induction priority with
  | nil => rfl
  | cons s rest ih =>
    by_cases hurl : (urlForSource links s == "") = true
    · rw [cascade_cons_skip { env with lucidaAvailable := b } links s rest
        hurl, cascade_cons_skip env links s rest hurl, ih]
    · have hurl' : (urlForSource links s == "") = false := by
        simpa using hurl
      have htS : tryServices { env with lucidaAvailable := b } s
          (urlForSource links s) = tryServices env s (urlForSource links s) :=
        rfl
      rcases ht : tryServices env s (urlForSource links s) with ⟨tr, att, r⟩
      cases r with
      | some p =>
        rw [cascade_cons_hit { env with lucidaAvailable := b } links s rest
          tr att p hurl' (htS.trans ht),
          cascade_cons_hit env links s rest tr att p hurl' ht]
      | none =>
        rw [cascade_cons_miss { env with lucidaAvailable := b } links s rest
          tr att hurl' (htS.trans ht),
          cascade_cons_miss env links s rest tr att hurl' ht, ih]

theorem cascade_first_success (env : Env) (links : SongLinks) :
    ∀ (priority : List String) (s p : String),
      (cascade env links priority).2.2 = some (s, p) →
      ∃ pre post, priority = pre ++ s :: post ∧
        urlForSource links s ≠ "" ∧
        (tryServices env s (urlForSource links s)).2.2 = some p ∧
        (∀ s' ∈ pre, urlForSource links s' = "" ∨
          (tryServices env s' (urlForSource links s')).2.2 = none) ∧
        (∃ preAtt, (cascade env links priority).2.1 =
          preAtt ++ (tryServices env s (urlForSource links s)).2.1 ∧
          ∀ x ∈ preAtt, x.1 ∈ pre) := by
  intro priority
  induction priority with
  | nil => intro s p h; simp [cascade] at h
  | cons s0 rest ih =>
    intro s p h
    by_cases hurl : (urlForSource links s0 == "") = true
    · rw [cascade_cons_skip env links s0 rest hurl] at h
      obtain ⟨pre, post, hsplit, hu, hok, hpre, preAtt, hatt, hmem⟩ :=
        ih s p h
      refine ⟨s0 :: pre, post, by simp [hsplit], hu, hok, ?_, preAtt, ?_, ?_⟩
      · intro s' hs'
        rcases List.mem_cons.mp hs' with rfl | hs''
        · exact Or.inl (by simpa using hurl)
        · exact hpre s' hs''
      · rw [cascade_cons_skip env links s0 rest hurl]
        exact hatt
      · intro x hx
        simp [hmem x hx]
    · have hurl' : (urlForSource links s0 == "") = false := by
        simpa using hurl
      rcases ht : tryServices env s0 (urlForSource links s0)
        with ⟨tr, att, r⟩
      cases r with
      | some p0 =>
        rw [cascade_cons_hit env links s0 rest tr att p0 hurl' ht] at h
        have hsp : s0 = s ∧ p0 = p := by simpa using h
        obtain ⟨rfl, rfl⟩ := hsp
        refine ⟨[], rest, rfl, by simpa using hurl, by rw [ht], by simp,
          [], ?_, by simp⟩
        rw [cascade_cons_hit env links s0 rest tr att p0 hurl' ht, ht]
        rfl
      | none =>
        rw [cascade_cons_miss env links s0 rest tr att hurl' ht] at h
        obtain ⟨pre, post, hsplit, hu, hok, hpre, preAtt, hatt, hmem⟩ :=
          ih s p h
        refine ⟨s0 :: pre, post, by simp [hsplit], hu, hok, ?_,
          att ++ preAtt, ?_, ?_⟩
        · intro s' hs'
          rcases List.mem_cons.mp hs' with rfl | hs''
          · exact Or.inr (by rw [ht])
          · exact hpre s' hs''
        · rw [cascade_cons_miss env links s0 rest tr att hurl' ht]
          rw [hatt, List.append_assoc]
        · intro x hx
          rcases List.mem_append.mp hx with hxa | hxp
          · have hx1 : x.1 = s0 :=
              (tryServices_attempts env s0 (urlForSource links s0) x
                (by rw [ht]; exact hxa)).1
            simp [hx1]
          · simp [hmem x hxp]

theorem stage3_records_source (env : Env) (it : QueueItem) (vi : VideoInfo)
    (vp : String) (links : SongLinks) (s p : String)
    (hres : env.resolve = some links)
    (hurl : (it.spotifyURL != "" || it.videoURL != "") = true)
    (hcas : (cascade env links env.config.audioSourcePriority).2.2 =
      some (s, p)) :
    (stage3 env it vi vp).1.audioSource = s ∧
    (stage3 env it vi vp).1.audioPath = p := by
  rcases hc : cascade env links env.config.audioSourcePriority
    with ⟨trc, att, res⟩
  have hres' : res = some (s, p) := by rw [hc] at hcas; exact hcas
  subst hres'
  simp only [stage3, updStatus, hres, hc, hurl]
  simp

/-- Claim C1 (amended): in the cascade's download phase, sources are taken
in priority order, sources with an empty resolver URL are skipped, and the
registered services are tried in the fixed internal order tidal-hifi, then
lucida, then orpheusdl; tidal-hifi is tried only for tidal sources and only
when its availability probe passes, orpheusdl only when its probe passes,
while lucida is tried whenever no earlier service produced a result —
regardless of its own availability, which the code never consults.  On the
first successful download the loop stops: the result belongs to the first
source whose URL is non-empty and whose ladder succeeded, no later source
contributes an attempt, and stage 3 records that source tag in the item's
audio_source with the downloaded file in audio_path. -/
theorem C1_cascade (env : Env) (links : SongLinks) (priority : List String) :
    (∀ x ∈ (cascade env links priority).2.1,
      x.1 ∈ priority ∧ urlForSource links x.1 ≠ "" ∧
      (x.2 = "tidal-hifi" ∨ x.2 = "lucida" ∨ x.2 = "orpheusdl")) ∧
    (∀ s, (s, "tidal-hifi") ∈ (cascade env links priority).2.1 →
      s = "tidal" ∧ env.tidalHifiAvailable = true) ∧
    (∀ s, (s, "orpheusdl") ∈ (cascade env links priority).2.1 →
      env.orpheusAvailable = true) ∧
    (∀ s url, (tryServices env s url).2.1 = [(s, "tidal-hifi")] ∨
      (tryServices env s url).2.1 = [(s, "tidal-hifi"), (s, "lucida")] ∨
      (tryServices env s url).2.1 =
        [(s, "tidal-hifi"), (s, "lucida"), (s, "orpheusdl")] ∨
      (tryServices env s url).2.1 = [(s, "lucida")] ∨
      (tryServices env s url).2.1 = [(s, "lucida"), (s, "orpheusdl")]) ∧
    (∀ s url, ((s == "tidal" && env.tidalHifiAvailable) = false ∨
        env.tidalHifiDownload url = none) →
      (s, "lucida") ∈ (tryServices env s url).2.1) ∧
    (∀ b, cascade { env with lucidaAvailable := b } links priority =
      cascade env links priority) ∧
    (∀ s p, (cascade env links priority).2.2 = some (s, p) →
      ∃ pre post, priority = pre ++ s :: post ∧
        urlForSource links s ≠ "" ∧
        (tryServices env s (urlForSource links s)).2.2 = some p ∧
        (∀ s' ∈ pre, urlForSource links s' = "" ∨
          (tryServices env s' (urlForSource links s')).2.2 = none) ∧
        (∃ preAtt, (cascade env links priority).2.1 =
          preAtt ++ (tryServices env s (urlForSource links s)).2.1 ∧
          ∀ x ∈ preAtt, x.1 ∈ pre)) ∧
    (∀ (it : QueueItem) (vi : VideoInfo) (vp : String) (links2 : SongLinks)
        (s p : String), env.resolve = some links2 →
      (it.spotifyURL != "" || it.videoURL != "") = true →
      (cascade env links2 env.config.audioSourcePriority).2.2 =
        some (s, p) →
      (stage3 env it vi vp).1.audioSource = s ∧
      (stage3 env it vi vp).1.audioPath = p) := by
  refine ⟨?_, ?_, ?_, ?_, ?_, ?_, ?_, ?_⟩
  · intro x hx
    obtain ⟨h1, h2, h3⟩ := cascade_attempts_mem env links priority x hx
    exact ⟨h1, h2,
      (tryServices_attempts env x.1 (urlForSource links x.1) x h3).2.2.2⟩
  · intro s hx
    obtain ⟨-, -, h3⟩ := cascade_attempts_mem env links priority _ hx
    exact (tryServices_attempts env s (urlForSource links s) _ h3).2.1 rfl
  · intro s hx
    obtain ⟨-, -, h3⟩ := cascade_attempts_mem env links priority _ hx
    exact (tryServices_attempts env s (urlForSource links s) _ h3).2.2.1 rfl
  · intro s url
    exact tryServices_order env s url
  · intro s url h
    exact tryServices_lucida_always env s url h
  · intro b
    exact cascade_lucida_independent env links b priority
  · intro s p h
    exact cascade_first_success env links priority s p h
  · intro it vi vp links2 s p hres hurl hcas
    exact stage3_records_source env it vi vp links2 s p hres hurl hcas

/-- Claim C1, counterexample: with the lucida availability probe answering
false, a resolved tidal URL and both other services unavailable, the
cascade still tries lucida — refuting the claim that every service whose
is_available() is false is skipped.  The source never calls the lucida
probe. -/
theorem C1_counterexample :
    c1Env.lucidaAvailable = false ∧
    ("tidal", "lucida") ∈
      (cascade c1Env c1Links ["tidal", "qobuz", "amazon", "deezer"]).2.1 :=
  ⟨rfl, by decide⟩

/-- Claim C1 witness: lucida is tried for a tidal source with tidal-hifi
unavailable, and the first-success characterization at a concrete
two-source priority list where the first source succeeds via lucida. -/
theorem C1_witness :
    (("tidal", "lucida") ∈
      (tryServices c1WEnv "tidal" "https://tidal.com/track/1").2.1) ∧
    (∃ pre post, (["tidal", "qobuz"] : List String) = pre ++ "tidal" :: post ∧
      urlForSource c1Links "tidal" ≠ "" ∧
      (tryServices c1WEnv "tidal" (urlForSource c1Links "tidal")).2.2 =
        some "/tmp/a.flac" ∧
      (∀ s' ∈ pre, urlForSource c1Links s' = "" ∨
        (tryServices c1WEnv s' (urlForSource c1Links s')).2.2 = none) ∧
      (∃ preAtt, (cascade c1WEnv c1Links ["tidal", "qobuz"]).2.1 =
        preAtt ++ (tryServices c1WEnv "tidal"
          (urlForSource c1Links "tidal")).2.1 ∧
        ∀ x ∈ preAtt, x.1 ∈ pre)) := by
  have h := C1_cascade c1WEnv c1Links ["tidal", "qobuz"]
  exact ⟨h.2.2.2.2.1 "tidal" "https://tidal.com/track/1"
      (Or.inl (by decide)),
    h.2.2.2.2.2.2.1 "tidal" "/tmp/a.flac" (by decide)⟩

/-! ## Claim C6: progress monotonicity -/

theorem adjOK_of_le {a b : Nat} (h : a ≤ b) : adjOK a b = true := by
  simp [adjOK, h]

theorem adjOK_to_50 {a : Nat} (h1 : 50 ≤ a) (h2 : a ≤ 52) :
    adjOK a 50 = true := by
  interval_cases a <;> decide

theorem chainb_append_bd (R : Nat → Nat → Bool) :
    ∀ xs ys : List Nat, chainb R xs = true → chainb R ys = true →
      (∀ a ∈ xs.getLast?, ∀ b ∈ ys.head?, R a b = true) →
      chainb R (xs ++ ys) = true := by
  intro xs
  induction xs with
  | nil =>
    intro ys _ hy _
    simpa using hy
  | cons x t ih =>
    intro ys hx hy hbd
    cases t with
    | nil =>
      cases ys with
      | nil => simp [chainb]
      | cons y u =>
        have hR : R x y = true := hbd x (by simp) y (by simp)
        simpa [chainb, hR] using hy
    | cons x2 t2 =>
      have hx' : R x x2 = true ∧ chainb R (x2 :: t2) = true := by
        simpa [chainb, Bool.and_eq_true] using hx
      have hrec := ih ys hx'.2 hy (by
        intro a ha b hb
        exact hbd a (by simpa [List.getLast?_cons_cons] using ha) b hb)
      show chainb R (x :: x2 :: (t2 ++ ys)) = true
      have : chainb R (x2 :: (t2 ++ ys)) = true := hrec
      simp [chainb, hx'.1, this]

theorem stage1_trace (env : Env) (it : QueueItem) :
    (stage1 env it).2.1.map Update.progress = [] ∨
    (stage1 env it).2.1.map Update.progress = [5] := by
  unfold stage1
  by_cases ht : (it.title == "") = true
  · rw [if_pos ht]
    by_cases hp : env.parseOK = true
    · rcases hm : env.videoMeta with - | vi <;>
        simp [updStatus, hp, hm, SetItemError]
    · have hp' : env.parseOK = false := by simpa using hp
      simp [updStatus, hp', SetItemError]
  · rw [if_neg ht]
    simp

theorem stage15_trace (env : Env) (it : QueueItem) (vi : VideoInfo) :
    ((stage15 env it vi).2.2 = true →
      (stage15 env it vi).2.1.map Update.progress = [80, 100] ∨
      (stage15 env it vi).2.1.map Update.progress = [80, 90, 100]) ∧
    ((stage15 env it vi).2.2 = false →
      (stage15 env it vi).2.1.map Update.progress = [] ∨
      (stage15 env it vi).2.1.map Update.progress = [80, 90]) := by
  unfold stage15
  by_cases hc : (env.fileIndexPresent && vi.title != "") = true
  · rw [if_pos hc]
    rcases hm : env.findMatch vi.title vi.artist with - | ex
    · simp
    · simp only [updStatus]
      by_cases hp : (ex.path == stage15Target env
          { it with status := StatusOrganizing, progress := 80,
                    stage := "Found existing file..." } ex) = true
      · rw [if_pos hp]
        simp
      · rw [if_neg hp]
        by_cases hcp : env.copyOK ex.path (stage15Target env
            { it with status := StatusOrganizing, progress := 80,
                      stage := "Found existing file..." } ex) = true
        · rw [if_pos hcp]
          simp
        · rw [if_neg hcp]
          simp
  · rw [if_neg hc]
    simp

theorem stage2_trace (env : Env) (it : QueueItem) :
    (stage2 env it).2.1.map Update.progress = [10, 40] := by
  rcases h : env.videoDownload with - | vp <;> simp [stage2, updStatus, h]

theorem stage4_trace (env : Env) (it : QueueItem) (ao : Bool) :
    (stage4 env it ao).2.1.map Update.progress = [70] ∨
    (stage4 env it ao).2.1.map Update.progress = [70, 80] := by
  unfold stage4
  simp only [updStatus]
  by_cases hk : env.outputMkdirOK = true
  · have : (!env.outputMkdirOK) = false := by simp [hk]
    rw [this]
    cases ao with
    | true =>
      by_cases hf : env.createFLACOK = true <;>
        simp [hf, SetItemError]
    | false =>
      by_cases hf : env.muxOK = true <;>
        simp [hf, SetItemError]
  · have : (!env.outputMkdirOK) = true := by
      simp [Bool.not_eq_true] at hk ⊢
      exact hk
    rw [this]
    simp [SetItemError]

theorem stage45_trace (env : Env) (it : QueueItem) (vi : VideoInfo) :
    (stage45 env it vi).2.map Update.progress = [] ∨
    (stage45 env it vi).2.map Update.progress = [85] := by
  unfold stage45
  split <;> simp [updStatus]

theorem stage5_trace (it : QueueItem) :
    (stage5 it).2.map Update.progress = [90] := rfl

theorem stage6_trace (env : Env) (it : QueueItem) (p : String) :
    (stage6 env it p).2.map Update.progress = [100] := rfl

theorem tryServices_trace (env : Env) (s url : String) :
    (tryServices env s url).1.map Update.progress = [] ∨
    (tryServices env s url).1.map Update.progress = [51] ∨
    (tryServices env s url).1.map Update.progress = [52] ∨
    (tryServices env s url).1.map Update.progress = [51, 52] := by
  by_cases h1 : (s == "tidal" && env.tidalHifiAvailable) = true
  · rcases hd : env.tidalHifiDownload url with - | p
    · rcases hl : env.lucidaDownload url with - | q
      · by_cases h2 : env.orpheusAvailable = true
        · rw [tryServices_L3 env s url h1 hd hl h2]; simp
        · rw [tryServices_L4 env s url h1 hd hl (by simpa using h2)]; simp
      · rw [tryServices_L2 env s url q h1 hd hl]; simp
    · rw [tryServices_L1 env s url p h1 hd]; simp
  · have h1' : (s == "tidal" && env.tidalHifiAvailable) = false := by
      simpa using h1
    rcases hl : env.lucidaDownload url with - | q
    · by_cases h2 : env.orpheusAvailable = true
      · rw [tryServices_L6 env s url h1' hl h2]; simp
      · rw [tryServices_L7 env s url h1' hl (by simpa using h2)]; simp
    · rw [tryServices_L5 env s url q h1' hl]; simp

theorem cascade_trace (env : Env) (links : SongLinks) :
    ∀ priority : List String,
      chainb adjOK ((cascade env links priority).1.map Update.progress) =
        true ∧
      (∀ x ∈ (cascade env links priority).1.map Update.progress,
        50 ≤ x ∧ x ≤ 52) ∧
      ((cascade env links priority).1.map Update.progress = [] ∨
        ((cascade env links priority).1.map Update.progress).head? =
          some 50) := by
  intro priority
  induction priority with
  | nil =>
    refine ⟨by simp [cascade, chainb], by simp [cascade],
      Or.inl (by simp [cascade])⟩
  | cons s rest ih =>
    by_cases hurl : (urlForSource links s == "") = true
    · rw [cascade_cons_skip env links s rest hurl]
      exact ih
    · have hurl' : (urlForSource links s == "") = false := by
        simpa using hurl
      rcases ht : tryServices env s (urlForSource links s) with ⟨tr, att, r⟩
      have htr : tr.map Update.progress = [] ∨
          tr.map Update.progress = [51] ∨
          tr.map Update.progress = [52] ∨
          tr.map Update.progress = [51, 52] := by
        have := tryServices_trace env s (urlForSource links s)
        rw [ht] at this
        exact this
      cases r with
      | some p =>
        rw [cascade_cons_hit env links s rest tr att p hurl' ht]
        refine ⟨?_, ?_, Or.inr (by simp)⟩
        · rcases htr with h | h | h | h <;> simp [h, chainb, adjOK]
        · intro x hx
          simp only [List.map_cons, List.mem_cons] at hx
          rcases hx with rfl | hx
          · omega
          · rcases htr with h | h | h | h <;> rw [h] at hx <;>
              simp at hx <;> omega
      | none =>
        rw [cascade_cons_miss env links s rest tr att hurl' ht]
        obtain ⟨ihc, ihb, ihh⟩ := ih
        have hbd : ∀ a ∈ (50 :: tr.map Update.progress).getLast?,
            ∀ b ∈ ((cascade env links rest).1.map Update.progress).head?,
            adjOK a b = true := by
          intro a ha b hb
          have hbv : b = 50 := by
            rcases ihh with hnil | hhd
            · rw [hnil] at hb
              simp at hb
            · rw [hhd] at hb
              simpa using hb.symm
          have hamem := List.mem_of_mem_getLast? ha
          have habd : 50 ≤ a ∧ a ≤ 52 := by
            rcases List.mem_cons.mp hamem with rfl | hmem
            · omega
            · rcases htr with h | h | h | h <;> rw [h] at hmem <;>
                simp at hmem <;> omega
          rw [hbv]
          exact adjOK_to_50 habd.1 habd.2
        have hch1 : chainb adjOK (50 :: tr.map Update.progress) = true := by
          rcases htr with h | h | h | h <;> simp [h, chainb, adjOK]
        have hglue := chainb_append_bd adjOK (50 :: tr.map Update.progress)
          ((cascade env links rest).1.map Update.progress) hch1 ihc hbd
        refine ⟨?_, ?_, Or.inr (by simp)⟩
        · simpa using hglue
        · intro x hx
          simp only [List.map_cons, List.map_append, List.mem_cons,
            List.mem_append] at hx
          rcases hx with rfl | hx | hx
          · omega
          · rcases htr with h | h | h | h <;> rw [h] at hx <;>
              simp at hx <;> omega
          · exact ihb x hx

theorem chainb_40_45 (L : List Nat) (hc : chainb adjOK L = true)
    (hb : ∀ x ∈ L, 50 ≤ x ∧ x ≤ 52) (hh : L = [] ∨ L.head? = some 50) :
    chainb adjOK (40 :: 45 :: L) = true ∧
    (∀ x ∈ 40 :: 45 :: L, 40 ≤ x ∧ x ≤ 55) := by
  constructor
  · have h45 : chainb adjOK ([45] ++ L) = true := by
      apply chainb_append_bd adjOK [45] _ (by simp [chainb]) hc
      intro a ha b hb'
      have ha' : a = 45 := by simpa using ha.symm
      have hb50 : b = 50 := by
        rcases hh with hnil | hhd
        · rw [hnil] at hb'
          simp at hb'
        · rw [hhd] at hb'
          simpa using hb'.symm
      rw [ha', hb50]
      decide
    have h45' : chainb adjOK (45 :: L) = true := by simpa using h45
    have h4045 : adjOK 40 45 = true := by decide
    cases L with
    | nil => simp [chainb, h4045]
    | cons y l =>
      simp [chainb, h4045]
      simpa [chainb] using h45'
  · intro x hx
    rcases List.mem_cons.mp hx with rfl | hx
    · omega
    · rcases List.mem_cons.mp hx with rfl | hx
      · omega
      · have := hb x hx
        omega

theorem chainb_snoc55 (l : List Nat) (hc : chainb adjOK l = true)
    (hb : ∀ x ∈ l, 40 ≤ x ∧ x ≤ 55) :
    chainb adjOK (l ++ [55]) = true ∧
    (∀ x ∈ l ++ [55], 40 ≤ x ∧ x ≤ 55) := by
  constructor
  · apply chainb_append_bd adjOK l [55] hc (by simp [chainb])
    intro a ha b hb'
    have hb55 : b = 55 := by simpa using hb'.symm
    have := hb a (List.mem_of_mem_getLast? ha)
    rw [hb55]
    exact adjOK_of_le (by omega)
  · intro x hx
    rcases List.mem_append.mp hx with h | h
    · exact hb x h
    · simp at h
      omega

theorem chainb_snoc55_cons (a : Nat) (l : List Nat)
    (hc : chainb adjOK (a :: l) = true)
    (hb : ∀ x ∈ a :: l, 40 ≤ x ∧ x ≤ 55) :
    chainb adjOK (a :: (l ++ [55])) = true ∧
    (∀ x ∈ a :: (l ++ [55]), 40 ≤ x ∧ x ≤ 55) := by
  have h := chainb_snoc55 (a :: l) hc hb
  constructor
  · simpa using h.1
  · intro x hx
    apply h.2
    simpa using hx

theorem stage3_trace (env : Env) (it : QueueItem) (vi : VideoInfo)
    (vp : String) :
    ∃ u, (stage3 env it vi vp).2.1.map Update.progress = 40 :: u ∧
      chainb adjOK (40 :: u) = true ∧
      (∀ x ∈ 40 :: u, 40 ≤ x ∧ x ≤ 55) := by
  rcases henv : env.resolve with - | links
  · unfold stage3
    simp only [updStatus, henv]
    repeat' split
    all_goals simp only [List.map_cons, List.map_append, List.map_nil]
    all_goals exact ⟨_, rfl, by decide, by decide⟩
  · obtain ⟨h1, h2, h3⟩ := cascade_trace env links env.config.audioSourcePriority
    rcases hc : cascade env links env.config.audioSourcePriority with ⟨trc, att, res⟩
    simp only [hc] at h1 h2 h3
    have hA := chainb_40_45 (trc.map Update.progress) h1 h2 h3
    have hB := chainb_snoc55_cons 40 (45 :: trc.map Update.progress)
      (by simpa using hA.1) (by simpa using hA.2)
    have hC := chainb_snoc55_cons 40 ((45 :: trc.map Update.progress) ++ [55])
      hB.1 hB.2
    unfold stage3
    simp only [updStatus, henv, hc]
    repeat' split
    all_goals simp only [List.map_cons, List.map_append, List.map_nil,
      List.append_nil]
    all_goals refine ⟨_, rfl, ?_, ?_⟩
    all_goals first
      | decide
      | (simpa using hA.1)
      | (simpa using hA.2)
      | (simpa [List.append_assoc] using hB.1)
      | (simpa [List.append_assoc] using hB.2)
      | (simpa [List.append_assoc] using hC.1)
      | (simpa [List.append_assoc] using hC.2)

theorem chainb_glue_le (xs ys : List Nat) (hx : chainb adjOK xs = true)
    (hy : chainb adjOK ys = true)
    (h : ∀ a ∈ xs.getLast?, ∀ b ∈ ys.head?, a ≤ b) :
    chainb adjOK (xs ++ ys) = true := by
  apply chainb_append_bd adjOK xs ys hx hy
  intro a ha b hb
  exact adjOK_of_le (h a ha b hb)

theorem runFromStage2_trace (env : Env) (it : QueueItem) (vi : VideoInfo) :
    ∃ t, (runFromStage2 env it vi).2.map Update.progress = 10 :: t ∧
      chainb adjOK (10 :: t) = true := by
  rcases h2 : stage2 env it with ⟨it2, tr2, vp, ao⟩
  have ht2 : tr2.map Update.progress = [10, 40] := by
    have h := stage2_trace env it
    rw [h2] at h
    exact h
  obtain ⟨u, hu, hcu, hbu⟩ := stage3_trace env it2 vi vp
  rcases h3 : stage3 env it2 vi vp with ⟨it3, tr3, audio⟩
  rw [h3] at hu
  have hu3 : tr3.map Update.progress = 40 :: u := hu
  have hfront : chainb adjOK (([10, 40] ++ (40 :: u) : List Nat)) = true := by
    apply chainb_glue_le _ _ (by decide) hcu
    intro a ha b hb
    simp at ha hb
    omega
  have hfrontb : ∀ x ∈ ([10, 40] ++ (40 :: u) : List Nat), x ≤ 55 := by
    intro x hx
    rcases List.mem_append.mp hx with h | h
    · simp at h
      rcases h with h | h <;> omega
    · exact (hbu x h).2
  rcases h4 : stage4 env it3 ao with ⟨it4, tr4, mux⟩
  have ht4 : tr4.map Update.progress = [70] ∨
      tr4.map Update.progress = [70, 80] := by
    have h := stage4_trace env it3 ao
    rw [h4] at h
    exact h
  rcases h45 : stage45 env it4 vi with ⟨it5, tr5⟩
  have ht45 : tr5.map Update.progress = [] ∨
      tr5.map Update.progress = [85] := by
    have h := stage45_trace env it4 vi
    rw [h45] at h
    exact h
  rcases h5 : stage5 it5 with ⟨it6, tr6⟩
  have ht5 : tr6.map Update.progress = [90] := by
    have h := stage5_trace it5
    rw [h5] at h
    exact h
  have hglue4 : ∀ (T : List Nat), chainb adjOK T = true → T.head? = some 70 →
      chainb adjOK ((([10, 40] ++ (40 :: u)) ++ T : List Nat)) = true := by
    intro T hT hhd
    apply chainb_glue_le _ _ hfront hT
    intro a ha b hb
    have hmem := List.mem_of_mem_getLast? ha
    have h1 := hfrontb a hmem
    rw [hhd] at hb
    simp at hb
    omega
  unfold runFromStage2
  simp only [h2, h3, h4, h45, h5, stage6]
  rcases audio with - | ap
  · refine ⟨40 :: 40 :: u, ?_, ?_⟩
    · simp [List.map_append, ht2, hu3]
    · simpa using hfront
  · rcases mux with - | outP
    · rcases ht4 with h | h
      · refine ⟨40 :: 40 :: (u ++ [70]),
          by simp [List.map_append, ht2, hu3, h], ?_⟩
        have := hglue4 [70] (by decide) (by decide)
        simpa using this
      · refine ⟨40 :: 40 :: (u ++ [70, 80]),
          by simp [List.map_append, ht2, hu3, h], ?_⟩
        have := hglue4 [70, 80] (by decide) (by decide)
        simpa using this
    · rcases ht4 with h | h <;> rcases ht45 with h' | h'
      · refine ⟨40 :: 40 :: (u ++ [70, 90, 100]),
          by simp [List.map_append, ht2, hu3, h, h', ht5], ?_⟩
        have := hglue4 [70, 90, 100] (by decide) (by decide)
        simpa using this
      · refine ⟨40 :: 40 :: (u ++ [70, 85, 90, 100]),
          by simp [List.map_append, ht2, hu3, h, h', ht5], ?_⟩
        have := hglue4 [70, 85, 90, 100] (by decide) (by decide)
        simpa using this
      · refine ⟨40 :: 40 :: (u ++ [70, 80, 90, 100]),
          by simp [List.map_append, ht2, hu3, h, h', ht5], ?_⟩
        have := hglue4 [70, 80, 90, 100] (by decide) (by decide)
        simpa using this
      · refine ⟨40 :: 40 :: (u ++ [70, 80, 85, 90, 100]),
          by simp [List.map_append, ht2, hu3, h, h', ht5], ?_⟩
        have := hglue4 [70, 80, 85, 90, 100] (by decide) (by decide)
        simpa using this

/-- C6, corrected: within one run of processItem, every adjacent pair of
assigned progress values satisfies adjOK: the later value is at least the
earlier one, except for the two decreases the code performs deliberately
(the skip-detection copy-failure fall-through from 90 back to 10, and the
cascade moving from a failed service attempt at 51 or 52 to the next
source's 50). -/
theorem C6_progress_adjacent (env : Env) (it0 : QueueItem) :
    chainb adjOK (progressTrace env it0) = true := by
  unfold progressTrace processItem
  by_cases h0 : (it0.status != StatusPending) = true
  · rw [if_pos h0]
    simp [chainb]
  · rw [if_neg h0]
    by_cases hT : (!env.tempDirOK) = true
    · rw [if_pos hT]
      simp [chainb]
    · rw [if_neg hT]
      rcases h1 : stage1 env (startItem it0) with ⟨it1, tr1, info⟩
      have ht1 : tr1.map Update.progress = [] ∨
          tr1.map Update.progress = [5] := by
        have h := stage1_trace env (startItem it0)
        rw [h1] at h
        exact h
      rcases info with - | vi
      · simp only [h1]
        rcases ht1 with h | h <;> simp [h, chainb]
      · rcases hst15 : stage15 env it1 vi with ⟨it15, tr15, halted⟩
        have h15 := stage15_trace env it1 vi
        rw [hst15] at h15
        obtain ⟨t, htF, hcF⟩ := runFromStage2_trace env it15 vi
        rcases hF : runFromStage2 env it15 vi with ⟨itF, trF⟩
        rw [hF] at htF
        have htF' : trF.map Update.progress = 10 :: t := htF
        simp only [h1, hst15, hF]
        cases halted with
        | true =>
          have h15t : tr15.map Update.progress = [80, 100] ∨
              tr15.map Update.progress = [80, 90, 100] := h15.1 rfl
          rw [if_pos rfl]
          rcases ht1 with h | h <;> rcases h15t with h' | h' <;>
            simp only [List.map_append, h, h', List.nil_append] <;> decide
        | false =>
          have h15f : tr15.map Update.progress = [] ∨
              tr15.map Update.progress = [80, 90] := h15.2 rfl
          rw [if_neg (by decide : ¬(false = true))]
          rcases ht1 with h | h <;> rcases h15f with h' | h' <;>
            simp only [List.map_append, h, h', htF',
              List.nil_append, List.append_nil]
          · exact hcF
          · apply chainb_append_bd adjOK [80, 90] (10 :: t) (by decide) hcF
            intro a ha b hb
            simp at ha hb
            rw [← ha, ← hb]
            decide
          · apply chainb_append_bd adjOK [5] (10 :: t) (by decide) hcF
            intro a ha b hb
            simp at ha hb
            rw [← ha, ← hb]
            decide
          · apply chainb_append_bd adjOK ([5] ++ [80, 90]) (10 :: t)
              (by decide) hcF
            intro a ha b hb
            simp at ha hb
            rw [← ha, ← hb]
            decide

/-- C6 counterexample input run: the copy-failure fall-through emits 90 then
10, so the plain monotonicity check fails on a real trace. -/
theorem C6_counterexample :
    monoOK (progressTrace c6Env c3Item) = false := by decide

end YouFLAC
